import Mathlib

/-!
Verification development for the ysfx effect engine (talaviram/ysfx).

This file gives a shallow embedding, in Lean 4, of the parts of the ysfx
source that the verified properties talk about:

* the slider curve math of `ysfx.cpp` (modelled over the exact reals `ℝ`;
  the C `double` arithmetic is modelled by exact real arithmetic, so
  "equality up to floating-point tolerance" is modelled by exact equality);
* the preset/bank value operations of `ysfx_preset.cpp` (modelled over
  `List`-based banks; the C `new`/copy discipline becomes purely
  functional value passing);
* the RPL bank text codec of `ysfx_preset.cpp` (byte strings are
  `List Char` / `List ℕ`; `double` slider values are modelled by `ℚ`);
* the header/slider parsing of `ysfx_parse.cpp` (C pointer scanning over
  NUL-terminated strings becomes structural recursion over `List Char`);
* the import resolution and compile orchestration of `ysfx.cpp` (the file
  system and the EEL virtual machine are kept abstract, as oracles).

Struct fields that none of the verified properties can observe (graphics
state, MIDI buffers, locks, reference counts) are omitted from the
embedded records; every field that is kept carries the source name.
Helper routines that live outside the `sources/` tree (the WDL
`LineParser`, the base64 codec and the small string utilities of
`ysfx_utils.cpp`) are modelled from the specification; each such
definition is marked `Modelled from the spec:` in its doc comment.
-/

/-! ## Slider curve math (ysfx.cpp, lines 840-1037)

`ysfx_real` is C `double`; it is modelled by `ℝ`.  `curve->shape` is an
integer tag (0 = linear, 1 = log, 2 = sqr). -/

/-- C source `ysfx.h` / `ysfx.cpp`: the `ysfx_slider_curve_t` record
(default value, bounds, increment, shape tag, shape modifier).  The C
field `def` is renamed `defv` (`def` is a Lean keyword). -/
structure ysfx_slider_curve_t where
  defv : ℝ
  min : ℝ
  max : ℝ
  inc : ℝ
  shape : ℕ
  modifier : ℝ

/-- C source `ysfx.cpp` lines 932-935: `_sgn(value) = value >= 0 ? 1 : -1`. -/
noncomputable def _sgn (value : ℝ) : ℝ :=
  if 0 ≤ value then 1 else -1

/-- C source `ysfx.cpp` lines 1010-1013: plain affine map from normalized
to real values. -/
noncomputable def ysfx_slider_scale_from_normalized_linear
    (value : ℝ) (curve : ysfx_slider_curve_t) : ℝ :=
  value * (curve.max - curve.min) + curve.min

/-- C source `ysfx.cpp` lines 993-999: inverse affine map, returning
`curve.min` when the range is degenerate (`|max-min| < 1e-12`). -/
noncomputable def ysfx_slider_scale_to_normalized_linear
    (value : ℝ) (curve : ysfx_slider_curve_t) : ℝ :=
  let diff := curve.max - curve.min
  if |diff| < 1 / 1000000000000 then curve.min
  else (value - curve.min) / diff

/-- C source `ysfx.cpp` lines 871-899: log-shaped scaling from normalized
values; falls back to the linear map when the parameters are degenerate. -/
noncomputable def ysfx_slider_scale_from_normalized_log
    (value : ℝ) (curve : ysfx_slider_curve_t) : ℝ :=
  if curve.modifier = 0 then
    if curve.min ≤ 1 / 10000 ∨ curve.max ≤ 1 / 10000 then
      ysfx_slider_scale_from_normalized_linear value curve
    else
      Real.exp ((Real.log curve.max - Real.log curve.min) * value + Real.log curve.min)
  else
    if |curve.max - curve.min| < 1 / 10000000 then
      ysfx_slider_scale_from_normalized_linear value curve
    else if |curve.modifier - curve.min| < 1 / 10000000 then
      ysfx_slider_scale_from_normalized_linear value curve
    else
      let m := (curve.modifier - curve.min) / (curve.max - curve.min)
      let mm1 := ((m - 1) / m) * ((m - 1) / m)
      let prefactor := (curve.max - curve.min) / (mm1 - 1)
      prefactor * (|mm1| ^ value - 1) + curve.min

/-- C source `ysfx.cpp` lines 902-930: log-shaped scaling to normalized
values; falls back to the linear map when the parameters are degenerate. -/
noncomputable def ysfx_slider_scale_to_normalized_log
    (value : ℝ) (curve : ysfx_slider_curve_t) : ℝ :=
  if curve.modifier = 0 then
    if curve.min ≤ 1 / 10000 ∨ curve.max ≤ 1 / 10000 then
      ysfx_slider_scale_to_normalized_linear value curve
    else
      (Real.log value - Real.log curve.min) / (Real.log curve.max - Real.log curve.min)
  else
    if |curve.max - curve.min| < 1 / 10000000 then
      ysfx_slider_scale_to_normalized_linear value curve
    else if |curve.modifier - curve.min| < 1 / 10000000 then
      ysfx_slider_scale_to_normalized_linear value curve
    else
      let m := (curve.modifier - curve.min) / (curve.max - curve.min)
      let mm1 := ((m - 1) / m) * ((m - 1) / m)
      let inv_prefactor := (mm1 - 1) / (curve.max - curve.min)
      Real.log (|(value - curve.min) * inv_prefactor + 1|) / Real.log (|mm1|)

/-- C source `ysfx.cpp` lines 947-953: sqr (power-law) scaling from
normalized values. -/
noncomputable def ysfx_slider_scale_from_normalized_sqr
    (value : ℝ) (curve : ysfx_slider_curve_t) : ℝ :=
  let imaxi := _sgn curve.max * |curve.max| ^ (1 / curve.modifier)
  let imini := _sgn curve.min * |curve.min| ^ (1 / curve.modifier)
  let interp := value * (imaxi - imini) + imini
  _sgn interp * |interp| ^ curve.modifier

/-- C source `ysfx.cpp` lines 968-975: sqr (power-law) scaling to
normalized values. -/
noncomputable def ysfx_slider_scale_to_normalized_sqr
    (value : ℝ) (curve : ysfx_slider_curve_t) : ℝ :=
  let inv_mod := 1 / curve.modifier
  let imaxi := _sgn curve.max * |curve.max| ^ inv_mod
  let imini := _sgn curve.min * |curve.min| ^ inv_mod
  let interp := _sgn value * |value| ^ inv_mod
  (interp - imini) / (imaxi - imini)

/-- C source `ysfx.cpp` lines 1016-1025: dispatch from normalized to real
values on the curve shape tag. -/
noncomputable def ysfx_normalized_to_ysfx_value
    (normalizedValue : ℝ) (curve : ysfx_slider_curve_t) : ℝ :=
  match curve.shape with
  | 2 => ysfx_slider_scale_from_normalized_sqr normalizedValue curve
  | 1 => ysfx_slider_scale_from_normalized_log normalizedValue curve
  | _ => ysfx_slider_scale_from_normalized_linear normalizedValue curve

/-- C source `ysfx.cpp` lines 1028-1037: dispatch from real to normalized
values on the curve shape tag. -/
noncomputable def ysfx_ysfx_value_to_normalized
    (value : ℝ) (curve : ysfx_slider_curve_t) : ℝ :=
  match curve.shape with
  | 2 => ysfx_slider_scale_to_normalized_sqr value curve
  | 1 => ysfx_slider_scale_to_normalized_log value curve
  | _ => ysfx_slider_scale_to_normalized_linear value curve

/-- Parameters for which the forward map of each branch of the curve math
is exactly invertible by the backward map (over the exact reals).  The
conditions mirror the branch structure of the source: the linear branch
and every fallback-to-linear branch need the non-degeneracy guard
`1e-12 ≤ |max - min|` of `ysfx_slider_scale_to_normalized_linear`; the
pure-log branch needs distinct bounds; the anchored log branch needs its
blend base `mm1` to be neither 0 nor 1; the sqr branch needs a nonzero
exponent and distinct transformed endpoints. -/
def curve_invertible (c : ysfx_slider_curve_t) : Prop :=
  match c.shape with
  | 2 =>
    c.modifier ≠ 0 ∧
      _sgn c.max * |c.max| ^ (1 / c.modifier) ≠ _sgn c.min * |c.min| ^ (1 / c.modifier)
  | 1 =>
    if c.modifier = 0 then
      if c.min ≤ 1 / 10000 ∨ c.max ≤ 1 / 10000 then
        1 / 1000000000000 ≤ |c.max - c.min|
      else c.min ≠ c.max
    else
      if |c.max - c.min| < 1 / 10000000 then
        1 / 1000000000000 ≤ |c.max - c.min|
      else if |c.modifier - c.min| < 1 / 10000000 then True
      else
        let m := (c.modifier - c.min) / (c.max - c.min)
        let mm1 := ((m - 1) / m) * ((m - 1) / m)
        mm1 ≠ 0 ∧ mm1 ≠ 1
  | _ => 1 / 1000000000000 ≤ |c.max - c.min|

/-! ## Preset and bank data model (ysfx.h / ysfx_preset.cpp)

Banks are value objects here: the C discipline "every mutation returns a
newly allocated bank and leaves the input untouched" is exactly the
behaviour of pure functions over these records, so allocation itself has
no observable counterpart in the embedding. -/

/-- ASCII double quote, kept out of character-literal syntax. -/
def cQuote : Char := Char.ofNat 34

/-- ASCII single quote (apostrophe). -/
def cApos : Char := Char.ofNat 39

/-- ASCII backtick (grave accent). -/
def cBacktick : Char := Char.ofNat 96

/-- ASCII NUL. -/
def cNul : Char := Char.ofNat 0

/-- C source `ysfx.h`: one saved slider slot of a preset state. -/
structure ysfx_state_slider_t where
  index : ℕ
  value : ℚ
  deriving DecidableEq, Repr

/-- C source `ysfx.h`: an opaque preset state: saved slider slots plus the
raw serialization bytes (`data`/`data_size`). -/
structure ysfx_state_t where
  sliders : List ysfx_state_slider_t
  data : List ℕ
  deriving DecidableEq, Repr

/-- C source `ysfx.h`: one preset: display name, the escaped name kept
inside the binary blob, and the state. -/
structure ysfx_preset_t where
  name : String
  blob_name : String
  state : ysfx_state_t
  deriving DecidableEq, Repr

/-- C source `ysfx.h`: a bank: a name and an ordered preset list
(`preset_count` is the list length). -/
structure ysfx_bank_t where
  name : String
  presets : List ysfx_preset_t
  deriving DecidableEq, Repr

/-- C source `ysfx.cpp` `ysfx_state_dup`: deep copy; the identity on
values. -/
def ysfx_state_dup (state : ysfx_state_t) : ysfx_state_t := state

/-- C source `ysfx_preset.cpp` lines 156-170, loop body of
`hasFunkyCharacters`: accumulate the flags bits for double quote, single
quote, backtick and space, stopping once all four were seen. -/
def hasFunkyCharacters_loop : List Char → ℕ → ℕ
  | [], flags => flags
  | c :: rest, flags =>
    if flags = 15 then flags
    else
      hasFunkyCharacters_loop rest
        (if c = cQuote then flags ||| 1
         else if c = cApos then flags ||| 2
         else if c = cBacktick then flags ||| 4
         else if c = ' ' then flags ||| 8
         else flags)

/-- C source `ysfx_preset.cpp` lines 156-170: `hasFunkyCharacters`. -/
def hasFunkyCharacters (s : List Char) : ℕ :=
  hasFunkyCharacters_loop s 0

/-- C source `ysfx_preset.cpp` lines 172-192: `escapeString`; plain names
pass through, a name with some funky characters is wrapped in a quote
character it does not contain, and a name with all four is wrapped in
backticks with inner backticks rewritten to single quotes. -/
def escapeString (s : String) : String :=
  let flags := hasFunkyCharacters s.data
  if flags = 0 then s
  else if flags ≠ 15 then
    let src := if flags &&& 1 ≠ 0 then (if flags &&& 2 ≠ 0 then cBacktick else cApos)
               else cQuote
    String.mk (src :: s.data ++ [src])
  else
    String.mk (cBacktick :: s.data.map (fun c => if c = cBacktick then cApos else c)
                ++ [cBacktick])

/-- C source `ysfx_preset.cpp` lines 315-328, loop of
`ysfx_preset_exists`: scan all entries, remembering `i + 1` for the last
index `i` whose name matches. -/
def ysfx_preset_exists_loop : List ysfx_preset_t → String → ℕ → ℕ → ℕ
  | [], _, _, found => found
  | p :: rest, preset_name, i, found =>
    ysfx_preset_exists_loop rest preset_name (i + 1)
      (if p.name = preset_name then i + 1 else found)

/-- C source `ysfx_preset.cpp` lines 315-328: `ysfx_preset_exists`;
returns 1 + the index of the last preset with the given name, or 0 when
no preset matches. -/
def ysfx_preset_exists (bank : ysfx_bank_t) (preset_name : String) : ℕ :=
  ysfx_preset_exists_loop bank.presets preset_name 0 0

/-- C source `ysfx_preset.cpp` lines 353-355 and 381-383: the per-entry
copy (`strdup` of both names plus `ysfx_state_dup`); the identity on
values. -/
def ysfx_preset_dup (p : ysfx_preset_t) : ysfx_preset_t :=
  { name := p.name, blob_name := p.blob_name, state := ysfx_state_dup p.state }

/-- C source `ysfx_preset.cpp` lines 341-365: `ysfx_add_preset_to_bank`;
copy the bank, overwriting the last entry named `preset_name` if there is
one and appending a fresh entry otherwise.  The new entry stores the
escaped name as its blob name. -/
def ysfx_add_preset_to_bank (bank_in : ysfx_bank_t) (preset_name : String)
    (state : ysfx_state_t) : ysfx_bank_t :=
  let found := ysfx_preset_exists bank_in preset_name
  let new_preset : ysfx_preset_t :=
    { name := preset_name, blob_name := escapeString preset_name,
      state := state }
  if found = 0 then
    { name := bank_in.name, presets := bank_in.presets.map ysfx_preset_dup ++ [new_preset] }
  else
    { name := bank_in.name,
      presets := (bank_in.presets.map ysfx_preset_dup).set (found - 1) new_preset }

/-- C source `ysfx_preset.cpp` lines 379-386, copy loop of
`ysfx_delete_preset_from_bank`: copy every entry whose index differs from
`skip`. -/
def ysfx_delete_copy_loop (skip : ℕ) : List ysfx_preset_t → ℕ → List ysfx_preset_t
  | [], _ => []
  | p :: rest, i =>
    if i = skip then ysfx_delete_copy_loop skip rest (i + 1)
    else ysfx_preset_dup p :: ysfx_delete_copy_loop skip rest (i + 1)

/-- C source `ysfx_preset.cpp` lines 368-389: `ysfx_delete_preset_from_bank`;
`found - 1` is computed in `uint32_t` arithmetic, so when the name is
absent (`found = 0`) the skipped index `2^32 - 1` is never reached and
every entry is copied. -/
def ysfx_delete_preset_from_bank (bank_in : ysfx_bank_t)
    (preset_name : String) : ysfx_bank_t :=
  let found := ysfx_preset_exists bank_in preset_name
  { name := bank_in.name,
    presets := ysfx_delete_copy_loop ((found + 4294967295) % 4294967296)
      bank_in.presets 0 }

/-! ## Effect engine: sections, compilation, processing (ysfx.cpp)

The EEL virtual machine and the file system are external collaborators;
they enter the model as oracles.  A compiled code handle carries no
observable content, so handles are modelled by `Option Unit` (`none` is
the empty/null handle of an absent or empty section). -/

/-- C source `ysfx_parse.hpp`: one section of script text and the line it
starts on. -/
structure ysfx_section_t where
  text : String
  line_offset : ℕ
  deriving DecidableEq, Repr

/-- C source `ysfx_parse.hpp`: the parsed top level of one file: a header
section plus the optional named code sections and the `@gfx` dimensions. -/
structure ysfx_toplevel_t where
  header : ysfx_section_t
  init : Option ysfx_section_t
  slider : Option ysfx_section_t
  block : Option ysfx_section_t
  sample : Option ysfx_section_t
  gfx : Option ysfx_section_t
  serialize : Option ysfx_section_t
  gfx_w : ℕ
  gfx_h : ℕ
  deriving DecidableEq, Repr

/-- C source `ysfx.hpp`: one source unit; only the parsed top level is
observable by the verified properties (the parsed header is carried
separately where needed). -/
structure ysfx_source_unit_t where
  toplevel : ysfx_toplevel_t
  deriving DecidableEq, Repr

/-- C source `ysfx.hpp`: the `fx->source` slot: the main unit (if a file
is loaded) and the ordered import list. -/
structure ysfx_source_t where
  main : Option ysfx_source_unit_t
  imports : List ysfx_source_unit_t
  deriving DecidableEq, Repr

/-- C source `ysfx.hpp`: the `fx->code` slot: one init handle per unit
(imports then main), the five single-section handles, and the `compiled`
flag. -/
structure ysfx_code_t where
  init : List (Option Unit)
  slider : Option Unit
  block : Option Unit
  sample : Option Unit
  gfx : Option Unit
  serialize : Option Unit
  compiled : Bool
  deriving DecidableEq, Repr

/-- The zero value `fx->code = {}` assigns. -/
def ysfx_code_empty : ysfx_code_t :=
  { init := [], slider := none, block := none, sample := none,
    gfx := none, serialize := none, compiled := false }

/-- C source `ysfx.hpp`: the effect object, restricted to the fields the
verified properties observe. -/
structure ysfx_t where
  source : ysfx_source_t
  code : ysfx_code_t
  is_freshly_compiled : Bool
  must_compute_init : Bool
  must_compute_slider : Bool
  has_serialize : Bool
  deriving DecidableEq, Repr

/-- The external EEL virtual machine, as an oracle: whether a given
section text compiles, and what the compiled audio path writes (the
latter is entirely opaque to the properties verified here). -/
structure nseel_vm_oracle where
  compile_ok : String → Bool
  process_compiled : ysfx_t → List (List ℚ) → ℕ → ℕ → ℕ → List (List ℚ)

/-- C source `ysfx.cpp` lines 554-578: `ysfx_unload_code`; clears every
code handle and the compile bookkeeping flags (the VM housekeeping calls
have no observable effect in the model). -/
def ysfx_unload_code (fx : ysfx_t) : ysfx_t :=
  { fx with
    code := ysfx_code_empty,
    is_freshly_compiled := false,
    must_compute_init := false,
    must_compute_slider := false }

/-- C source `ysfx.cpp` lines 586-589: `ysfx_is_loaded`. -/
def ysfx_is_loaded (fx : ysfx_t) : Bool :=
  fx.source.main.isSome

/-- C source `ysfx.cpp` lines 544-547: `ysfx_is_compiled`. -/
def ysfx_is_compiled (fx : ysfx_t) : Bool :=
  fx.code.compiled

/-- C source `ysfx.cpp` lines 424-440, `compile_section` inside
`ysfx_compile`: an empty text compiles to the empty handle; otherwise the
VM decides; `none` is the compile-error early return. -/
def compile_section (oracle : nseel_vm_oracle) (sec : ysfx_section_t) :
    Option (Option Unit) :=
  if sec.text = "" then some none
  else if oracle.compile_ok sec.text then some (some ()) else none

/-- C source `ysfx.cpp` lines 452-457, the `@init` loop of
`ysfx_compile`: each collected section slot compiles in order (a missing
section pushes the empty handle), aborting on the first failure. -/
def compile_init_sections (oracle : nseel_vm_oracle) :
    List (Option ysfx_section_t) → Option (List (Option Unit))
  | [] => some []
  | none :: rest =>
    (compile_init_sections oracle rest).map (fun hs => none :: hs)
  | some sec :: rest =>
    match compile_section oracle sec with
    | none => none
    | some h => (compile_init_sections oracle rest).map (fun hs => h :: hs)

/-- C source `ysfx.cpp` lines 778-826: `ysfx_search_section`; the section
is taken from the main file first, else from the first import that has
it.  The section kind is passed as the record projection. -/
def ysfx_search_section (fx : ysfx_t)
    (get : ysfx_toplevel_t → Option ysfx_section_t) : Option ysfx_section_t :=
  match fx.source.main with
  | none => none
  | some mainu =>
    match get mainu.toplevel with
    | some sec => some sec
    | none => fx.source.imports.findSome? (fun u => get u.toplevel)

/-- C source `ysfx.cpp` lines 473-482: one optional single section: an
absent section leaves its slot empty and is not an error. -/
def compile_optional_section (oracle : nseel_vm_oracle) :
    Option ysfx_section_t → Option (Option Unit)
  | none => some none
  | some sec => compile_section oracle sec

/-- The `compileopts` bits `ysfx_compile_no_gfx` and
`ysfx_compile_no_serialize` of `ysfx.h`. -/
structure ysfx_compile_opts where
  no_gfx : Bool
  no_serialize : Bool
  deriving DecidableEq, Repr

/-- C source `ysfx.cpp` lines 442-482, the section-compiling middle of
`ysfx_compile`: the `@init` sections (imports then main) in order, then
the five single sections; `none` is the first compile failure. -/
def ysfx_compile_attempt (oracle : nseel_vm_oracle)
    (secs : List (Option ysfx_section_t))
    (slider block sample gfx serialize : Option ysfx_section_t) :
    Option ysfx_code_t := do
  let inits ← compile_init_sections oracle secs
  let sliderh ← compile_optional_section oracle slider
  let blockh ← compile_optional_section oracle block
  let sampleh ← compile_optional_section oracle sample
  let gfxh ← compile_optional_section oracle gfx
  let serializeh ← compile_optional_section oracle serialize
  pure { init := inits, slider := sliderh, block := blockh, sample := sampleh,
         gfx := gfxh, serialize := serializeh, compiled := true }

/-- C source `ysfx.cpp` lines 389-494: `ysfx_compile`.  Old code is
unloaded first; with no source loaded it fails; otherwise the sections
compile through `ysfx_compile_attempt`; the first failure triggers the
`fail_guard`, whose `ysfx_unload_code` discards every handle of the
aborted attempt, so the abort path below returns the unloaded state (the
VM configuration calls have no observable effect in the model). -/
def ysfx_compile (oracle : nseel_vm_oracle) (fx : ysfx_t)
    (opts : ysfx_compile_opts) : Bool × ysfx_t :=
  let fx0 := ysfx_unload_code fx
  match fx0.source.main with
  | none => (false, fx0)
  | some mainu =>
    let secs := fx0.source.imports.map (fun u => u.toplevel.init) ++ [mainu.toplevel.init]
    let slider := ysfx_search_section fx0 (fun tl => tl.slider)
    let block := ysfx_search_section fx0 (fun tl => tl.block)
    let sample := ysfx_search_section fx0 (fun tl => tl.sample)
    let gfx := if opts.no_gfx then none else ysfx_search_section fx0 (fun tl => tl.gfx)
    let serialize :=
      if opts.no_serialize then none else ysfx_search_section fx0 (fun tl => tl.serialize)
    match ysfx_compile_attempt oracle secs slider block sample gfx serialize with
    | none => (false, ysfx_unload_code fx0)
    | some code =>
      (true,
       { fx0 with
         code := code,
         has_serialize := serialize.isSome,
         is_freshly_compiled := true,
         must_compute_init := true })

/-- The section texts `ysfx_compile` hands to the VM, in compile order:
the present, non-empty `@init` sections (imports then main) followed by
the present, non-empty single sections.  Empty and absent sections are
excluded because `compile_section` succeeds on them without consulting
the VM. -/
def compile_attempted_texts (fx : ysfx_t) (opts : ysfx_compile_opts) : List String :=
  match fx.source.main with
  | none => []
  | some mainu =>
    (((fx.source.imports.map (fun u => u.toplevel.init) ++ [mainu.toplevel.init])
        ++ [ysfx_search_section fx (fun tl => tl.slider),
            ysfx_search_section fx (fun tl => tl.block),
            ysfx_search_section fx (fun tl => tl.sample),
            if opts.no_gfx then none else ysfx_search_section fx (fun tl => tl.gfx),
            if opts.no_serialize then none
            else ysfx_search_section fx (fun tl => tl.serialize)]).filterMap id).map
        (fun sec => sec.text) |>.filter (fun t => t ≠ "")

/-- C source `ysfx.cpp` lines 1418-1499: `ysfx_process_generic`, viewed
as a function from the input channel contents to the output channel
contents.  When the effect is not compiled, each input channel is copied
to the matching output channel (`memcpy` of `num_frames` samples) and the
remaining output channels are zero-filled (`memset`); otherwise the
compiled audio path runs, which the oracle describes. -/
def ysfx_process_generic (oracle : nseel_vm_oracle) (fx : ysfx_t)
    (ins : List (List ℚ)) (num_ins num_outs num_frames : ℕ) : List (List ℚ) :=
  if fx.code.compiled = false then
    (List.range num_outs).map (fun ch =>
      if ch < min num_ins num_outs then (ins.getD ch []).take num_frames
      else List.replicate num_frames 0)
  else
    oracle.process_compiled fx ins num_ins num_outs num_frames

/-! ## Import resolution (ysfx.cpp, lines 310-375)

The file system enters as an oracle: `resolve` is
`ysfx_resolve_import_path`, `file_imports` is "open, preprocess and parse
the file, returning its header import list" (`none` is any of the open /
preprocess / parse failures), and `uid` is `ysfx::get_stream_file_uid`,
the de-duplication identity. -/

/-- The file-system oracle for import resolution. -/
structure ysfx_import_env where
  resolve : String → String → Option String
  file_imports : String → Option (List String)
  uid : String → ℕ

/-- C source `ysfx.cpp` line 312: `max_import_level`. -/
def max_import_level : ℕ := 32

/-- C source `ysfx.cpp` lines 361-364 and 372-375: the fold of
`do_next_import` over a list of import names (aborting on the first
failure); the recursive call is passed in as `next`. -/
def import_deps_fold (next : String → String → ℕ → List ℕ × List String →
      Option (List ℕ × List String)) :
    List String → String → ℕ → List ℕ × List String →
      Option (List ℕ × List String)
  | [], _, _, st => some st
  | name :: rest, origin, level, st =>
    match next name origin level st with
    | none => none
    | some st2 => import_deps_fold next rest origin level st2

/-- C source `ysfx.cpp` lines 315-370: `do_next_import`.  The state is
(`seen` uid set, accumulated import list).  A level of 32
(`max_import_level`) is a hard error; so is an unresolvable or
unreadable import; a uid already seen is skipped; otherwise the file's
own dependency list is processed *first* and the importer is appended
*second*, so the list is in post order.  The `fuel` argument only makes
the recursion structural: it decreases exactly when `level` increases,
so with the initial fuel `max_import_level + 1` the fuel-exhausted case
is unreachable. -/
def do_next_import (env : ysfx_import_env) :
    ℕ → String → String → ℕ → List ℕ × List String →
      Option (List ℕ × List String)
  | 0, _, _, _, _ => none
  | fuel + 1, name, origin, level, (seen, imports) =>
    if max_import_level ≤ level then none
    else
      match env.resolve name origin with
      | none => none
      | some imported_path =>
        if env.uid imported_path ∈ seen then some (seen, imports)
        else
          match env.file_imports imported_path with
          | none => none
          | some deps =>
            match import_deps_fold (do_next_import env fuel) deps imported_path
                (level + 1) (env.uid imported_path :: seen, imports) with
            | none => none
            | some (seen2, imports2) => some (seen2, imports2 ++ [imported_path])

/-- C source `ysfx.cpp` lines 372-375: the import phase of
`ysfx_load_file`: fold `do_next_import` over the main file's import
names at level 0; the result is the accumulated import path list. -/
def ysfx_load_file_imports (env : ysfx_import_env) (main_imports : List String)
    (main_path : String) : Option (List String) :=
  (import_deps_fold (do_next_import env (max_import_level + 1)) main_imports
      main_path 0 ([], [])).map Prod.snd

/-- C source `ysfx.cpp` lines 442-458: the `@init` compile order of
`ysfx_compile`: the import units in list order, then the main file. -/
def ysfx_compile_init_order (env : ysfx_import_env) (main_imports : List String)
    (main_path : String) : Option (List String) :=
  (ysfx_load_file_imports env main_imports main_path).map (fun l => l ++ [main_path])

/-- The diamond import graph of the verified property: A imports B and C,
B and C both import D, D imports nothing.  Import names resolve to
themselves and each file is its own identity. -/
def diamond_env : ysfx_import_env :=
  { resolve := fun name _ => some name,
    file_imports := fun s =>
      if s = "A" then some ["B", "C"]
      else if s = "B" then some ["D"]
      else if s = "C" then some ["D"]
      else if s = "D" then some []
      else none,
    uid := fun s =>
      if s = "A" then 0 else if s = "B" then 1
      else if s = "C" then 2 else if s = "D" then 3 else 4 }

/-- An unboundedly nested import chain: file `i` imports `ii`, which in
turn imports `iii`, and so on; every file is distinct. -/
def chain_env : ysfx_import_env :=
  { resolve := fun name _ => some name,
    file_imports := fun s => some [s.push 'i'],
    uid := fun s => s.length }

/-! ## Header and slider-line parsing (ysfx_parse.cpp)

C pointer scanning over NUL-terminated strings becomes structural
recursion over `List Char`; "the pointer reached the terminator" is the
empty list.  `double` values parsed from text are modelled by `ℚ`. -/

/-- Modelled from the spec: `ysfx::ascii_isspace` of `ysfx_utils.cpp`
(not under `sources/`): the six ASCII whitespace characters. -/
def ascii_isspace (c : Char) : Bool :=
  c = ' ' ∨ c.toNat = 9 ∨ c.toNat = 10 ∨ c.toNat = 11 ∨ c.toNat = 12 ∨ c.toNat = 13

/-- Modelled from the spec: `ysfx::ascii_tolower` of `ysfx_utils.cpp`
(not under `sources/`): lower-case one ASCII letter. -/
def ascii_tolower (c : Char) : Char :=
  if 'A' ≤ c ∧ c ≤ 'Z' then Char.ofNat (c.toNat + 32) else c

/-- Modelled from the spec: `ysfx::ascii_casecmp` equality of
`ysfx_utils.cpp` (not under `sources/`). -/
def ascii_caseeq (a b : String) : Bool :=
  a.data.map ascii_tolower = b.data.map ascii_tolower

/-- Modelled from the spec: `ysfx::trim(text, &ascii_isspace)` of
`ysfx_utils.cpp` (not under `sources/`): strip leading and trailing
whitespace. -/
def ysfx_trim (s : List Char) : List Char :=
  ((s.dropWhile ascii_isspace).reverse.dropWhile ascii_isspace).reverse

/-- Modelled from the spec: `ysfx::split_strings_noempty` of
`ysfx_utils.cpp` (not under `sources/`): split at the separator
predicate, dropping empty pieces. -/
def split_strings_noempty (s : List Char) (sep : Char → Bool) : List String :=
  ((s.splitOnP sep).map String.mk).filter (fun piece => piece ≠ "")

/-- C `strncmp(text, prefix, strlen(prefix)) == 0`, the `unprefix`
helper of `ysfx_parse_header` (line 211 of `ysfx_parse.cpp`). -/
def str_prefix (pre : String) (s : String) : Bool :=
  pre.data.isPrefixOf s.data

/-- Drop the recognized prefix: `text + len` in the source. -/
def str_drop (s : String) (n : ℕ) : String :=
  String.mk (s.data.drop n)

/-- C `strnicmp(prefix, s, prefix.length) == 0`: `s` starts with `prefix`
up to ASCII case. -/
def strnicmp_eq (pre : String) (s : List Char) : Bool :=
  pre.length ≤ s.length ∧
    (s.take pre.length).map ascii_tolower = pre.data.map ascii_tolower

/-- Decimal digits consumed by the C number scanners. -/
def digits_to_nat (ds : List Char) : ℕ :=
  ds.foldl (fun acc c => acc * 10 + (c.toNat - 48)) 0

/-- Modelled from the spec: `ysfx::dot_strtod` of `ysfx_utils.cpp` (not
under `sources/`): C `strtod` with `.` as the decimal separator in every
locale.  Skips leading whitespace, then an optional sign, a digit string
with an optional fractional part, and an optional exponent; when no digit
is consumed the result is 0 and the returned remainder is the whole input
(like `endptr = nptr`).  Hexadecimal, infinity and NaN forms are not
modelled. -/
def dot_strtod (cs : List Char) : ℚ × List Char :=
  let ws := cs.dropWhile ascii_isspace
  let (sign, afterSign) :=
    match ws with
    | c :: rest =>
      if c = '-' then ((-1 : ℚ), rest)
      else if c = '+' then ((1 : ℚ), rest)
      else ((1 : ℚ), ws)
    | [] => ((1 : ℚ), ws)
  let intDigits := afterSign.takeWhile Char.isDigit
  let afterInt := afterSign.dropWhile Char.isDigit
  let (fracDigits, afterFrac) :=
    match afterInt with
    | c :: rest =>
      if c = '.' then (rest.takeWhile Char.isDigit, rest.dropWhile Char.isDigit)
      else ([], afterInt)
    | [] => ([], afterInt)
  if intDigits = [] ∧ fracDigits = [] then ((0 : ℚ), cs)
  else
    let mantissa : ℚ :=
      (digits_to_nat intDigits : ℚ) +
        (digits_to_nat fracDigits : ℚ) / ((10 : ℚ) ^ fracDigits.length)
    let (exponent, afterExp) :=
      match afterFrac with
      | e :: rest =>
        if e = 'e' ∨ e = 'E' then
          let (esign, afterESign) :=
            match rest with
            | s :: rest2 =>
              if s = '-' then ((-1 : ℤ), rest2)
              else if s = '+' then ((1 : ℤ), rest2)
              else ((1 : ℤ), rest)
            | [] => ((1 : ℤ), rest)
          let eDigits := afterESign.takeWhile Char.isDigit
          if eDigits = [] then ((0 : ℤ), afterFrac)
          else (esign * (digits_to_nat eDigits : ℤ), afterESign.dropWhile Char.isDigit)
        else ((0 : ℤ), afterFrac)
      | [] => ((0 : ℤ), afterFrac)
    (sign * mantissa * (10 : ℚ) ^ exponent, afterExp)

/-- Modelled from the spec: `ysfx::dot_atof` of `ysfx_utils.cpp` (not
under `sources/`). -/
def dot_atof (cs : List Char) : ℚ :=
  (dot_strtod cs).1

/-- C `strtoul(cur, &cur, 10)` on a 64-bit `unsigned long`: skip
whitespace, optional sign (a minus sign wraps modulo `2^64`), then
digits; no digit leaves the pointer where it started. -/
def ysfx_strtoul (cs : List Char) : ℕ × List Char :=
  let ws := cs.dropWhile ascii_isspace
  let (neg, afterSign) :=
    match ws with
    | c :: rest =>
      if c = '-' then (true, rest)
      else if c = '+' then (false, rest)
      else (false, ws)
    | [] => (false, ws)
  let ds := afterSign.takeWhile Char.isDigit
  if ds = [] then (0, cs)
  else
    let n := digits_to_nat ds % 18446744073709551616
    (if neg then (18446744073709551616 - n) % 18446744073709551616 else n,
     afterSign.dropWhile Char.isDigit)

/-- C source `ysfx.h`: `ysfx_max_sliders`. -/
def ysfx_max_sliders : ℕ := 256

/-- C source `ysfx_parse.hpp`: one parsed slider declaration.  The C
fields `def` and `exists` are renamed `defv` and `exists_flag` (Lean
keywords). -/
structure ysfx_slider_t where
  id : ℕ
  var : String
  defv : ℚ
  min : ℚ
  max : ℚ
  inc : ℚ
  shape : ℕ
  shape_modifier : ℚ
  is_enum : Bool
  enum_names : List String
  path : String
  initially_visible : Bool
  desc : String
  exists_flag : Bool
  deriving DecidableEq, Repr

/-- The zero value `ysfx_slider_t{}` assigns. -/
def ysfx_slider_zero : ysfx_slider_t :=
  { id := 0, var := "", defv := 0, min := 0, max := 0, inc := 0, shape := 0,
    shape_modifier := 0, is_enum := false, enum_names := [], path := "",
    initially_visible := false, desc := "", exists_flag := false }

/-- C source `ysfx_parse.cpp` lines 470-483, the modifier sanity block of
`ysfx_parse_slider`: after an explicit `=modifier`, a sqr shape with a
modifier below `1e-4` in magnitude is downgraded to linear; otherwise a
modifier within `1e-7` of `min` downgrades any shape; finally a
degenerate range (`|max-min| < 1e-12`) downgrades any shape. -/
def ysfx_slider_shape_checks (shape : ℕ) (shape_modifier mn mx : ℚ) : ℕ :=
  let shape1 :=
    if |shape_modifier| < 1 / 10000 then
      if shape = 2 then 0 else shape
    else
      if |shape_modifier - mn| < 1 / 10000000 then 0 else shape
  if |mx - mn| < 1 / 1000000000000 then 0 else shape1

/-- C source `ysfx_parse.cpp` lines 388-398, the custom-variable scan of
`ysfx_parse_slider`: the index of the first `=` if one occurs before any
`<`, `,` or the end of the line. -/
def find_eq_before_angle : List Char → Option ℕ
  | [] => none
  | c :: rest =>
    if c = '=' then some 0
    else if c = '<' ∨ c = ',' then none
    else (find_eq_before_angle rest).map (fun k => k + 1)

/-- C source `ysfx_parse.cpp` lines 522-539, the description/visibility
tail of `ysfx_parse_slider`: skip whitespace, a leading `-` marks the
slider initially hidden, and an empty trimmed description is a parse
failure. -/
def ysfx_parse_slider_finish (slider : ysfx_slider_t) (cur : List Char) :
    Option ysfx_slider_t :=
  let cur1 := cur.dropWhile ascii_isspace
  let (visible, cur2) :=
    match cur1 with
    | c :: rest => if c = '-' then (false, rest) else (true, cur1)
    | [] => (true, cur1)
  let desc := String.mk (ysfx_trim cur2)
  if desc = "" then none
  else some { slider with initially_visible := visible, desc := desc }

/-- C source `ysfx_parse.cpp` lines 491-501: after the range body, skip
to the closing `>` (failing at the end of the line), consume it, then
skip commas and whitespace (failing at the end of the line), and parse
the description. -/
def ysfx_parse_slider_after_range (id : ℕ) (var : String) (defv mn mx inc : ℚ)
    (shape : ℕ) (md : ℚ) (is_en : Bool) (names : List String)
    (cur : List Char) : Option ysfx_slider_t :=
  let cur1 := cur.dropWhile (fun c => c ≠ '>')
  match cur1 with
  | [] => none
  | _ :: cur2 =>
    let cur3 := cur2.dropWhile (fun c => c = ',' ∨ ascii_isspace c)
    if cur3 = [] then none
    else
      ysfx_parse_slider_finish
        { ysfx_slider_zero with
          id := id, var := var, defv := defv, min := mn, max := mx, inc := inc,
          shape := shape, shape_modifier := md, is_enum := is_en,
          enum_names := names } cur3

/-- C source `ysfx_parse.cpp` lines 452-488, the shaping block of
`ysfx_parse_slider`: after a `:`, `log` or `sqr` (ASCII
case-insensitive) selects the shape (`sqr` defaults its modifier to 2);
an explicit `=modifier` overrides the modifier and runs the sanity block
`ysfx_slider_shape_checks`, then skips to `>` (failing at the end of the
line). -/
def ysfx_parse_slider_shaping (id : ℕ) (var : String) (defv mn mx inc : ℚ)
    (is_en : Bool) (names : List String) (cur : List Char) :
    Option ysfx_slider_t :=
  match cur with
  | c :: tail =>
    if c = ':' then
      let (shape0, mod0, cur1) :=
        if strnicmp_eq "log" tail then ((1 : ℕ), (0 : ℚ), tail.drop 3)
        else if strnicmp_eq "sqr" tail then ((2 : ℕ), (2 : ℚ), tail.drop 3)
        else ((0 : ℕ), (0 : ℚ), tail)
      match cur1 with
      | d :: tail1 =>
        if d = '=' then
          let (md, cur2) := dot_strtod tail1
          let shape2 := ysfx_slider_shape_checks shape0 md mn mx
          let cur3 := cur2.dropWhile (fun e => e ≠ '>')
          if cur3 = [] then none
          else ysfx_parse_slider_after_range id var defv mn mx inc shape2 md is_en names cur3
        else ysfx_parse_slider_after_range id var defv mn mx inc shape0 mod0 is_en names cur1
      | [] => ysfx_parse_slider_after_range id var defv mn mx inc shape0 mod0 is_en names cur1
    else ysfx_parse_slider_after_range id var defv mn mx inc 0 0 is_en names cur
  | [] => ysfx_parse_slider_after_range id var defv mn mx inc 0 0 is_en names cur

/-- C source `ysfx_parse.cpp` lines 429-489, the increment/enum part of
the range block: after a comma, parse `inc`, scan to `{`, `>` or `:`
(failing at the end of the line); a `{` collects the comma-separated,
trimmed enumeration names up to `}` or `>` (failing at the end of the
line); then the shaping block runs. -/
def ysfx_parse_slider_inc (id : ℕ) (var : String) (defv mn mx : ℚ)
    (cur : List Char) : Option ysfx_slider_t :=
  match cur with
  | c :: rest =>
    if c = ',' then
      let (inc, cur1) := dot_strtod rest
      let cur2 := cur1.dropWhile (fun e => ¬(e = '{' ∨ e = '>' ∨ e = ':'))
      match cur2 with
      | [] => none
      | b :: tail2 =>
        if b = '{' then
          let seg := tail2.takeWhile (fun e => ¬(e = '}' ∨ e = '>'))
          let cur3 := tail2.dropWhile (fun e => ¬(e = '}' ∨ e = '>'))
          if cur3 = [] then none
          else
            let names :=
              (split_strings_noempty seg (fun e => e = ',')).map
                (fun n => String.mk (ysfx_trim n.data))
            ysfx_parse_slider_shaping id var defv mn mx inc true names cur3
        else ysfx_parse_slider_shaping id var defv mn mx inc false [] cur2
    else ysfx_parse_slider_shaping id var defv mn mx 0 false [] cur
  | [] => ysfx_parse_slider_shaping id var defv mn mx 0 false [] cur

/-- C source `ysfx_parse.cpp` lines 411-428, the `<` range block of
`ysfx_parse_slider`: parse `min`, scan to `,` or `>` (failing at the end
of the line); a comma introduces `max` with the same scan-and-check;
then the increment/enum/shaping parts run. -/
def ysfx_parse_slider_range (id : ℕ) (var : String) (defv : ℚ)
    (cur : List Char) : Option ysfx_slider_t :=
  let (mn, cur1) := dot_strtod cur
  let cur2 := cur1.dropWhile (fun e => ¬(e = ',' ∨ e = '>'))
  match cur2 with
  | [] => none
  | c :: rest2 =>
    if c = ',' then
      let (mx, cur3) := dot_strtod rest2
      let cur4 := cur3.dropWhile (fun e => ¬(e = ',' ∨ e = '>'))
      if cur4 = [] then none
      else ysfx_parse_slider_inc id var defv mn mx cur4
    else ysfx_parse_slider_inc id var defv mn 0 cur2

/-- C source `ysfx_parse.cpp` lines 354-540: `ysfx_parse_slider`.
`none` is the `PARSE_FAIL` result.  A value beginning with `/` is a path
slider (an implicit enum with increment 1); otherwise the default value,
the optional `<range>` and the description parse in sequence. -/
def ysfx_parse_slider (line : String) : Option ysfx_slider_t :=
  let cur0 := line.data
  if ¬ strnicmp_eq "slider" cur0 then none
  else
    let cur1 := cur0.drop 6
    let (id_raw, cur2) := ysfx_strtoul cur1
    if id_raw < 1 ∨ ysfx_max_sliders < id_raw then none
    else
      let id := id_raw - 1
      match cur2 with
      | [] => none
      | colon :: cur3 =>
        if colon ≠ ':' then none
        else
          let cur4 := cur3.dropWhile ascii_isspace
          let (var, cur5) :=
            match find_eq_before_angle cur4 with
            | some k => (String.mk (cur4.take k), cur4.drop (k + 1))
            | none => ("slider" ++ toString (id + 1), cur4)
          if cur5.head? = some '/' then
            -- path slider, lines 504-520
            let path := String.mk (cur5.takeWhile (fun e => e ≠ ':'))
            let cur6 := cur5.dropWhile (fun e => e ≠ ':')
            match cur6 with
            | [] => none
            | _ :: rest6 =>
              let (defv, cur7) := dot_strtod rest6
              let cur8 := cur7.dropWhile (fun e => e ≠ ':')
              match cur8 with
              | [] => none
              | _ :: rest8 =>
                ysfx_parse_slider_finish
                  { ysfx_slider_zero with
                    id := id, var := var, defv := defv, inc := 1,
                    is_enum := true, path := path } rest8
          else
            -- regular slider, lines 401-501
            let (defv, cur6) := dot_strtod cur5
            let cur7 := cur6.dropWhile (fun e => ¬(e = ',' ∨ e = '<'))
            match cur7 with
            | [] => none
            | sep :: rest7 =>
              if sep = ',' then
                -- no range specification: straight to the description
                let cur8 := rest7.dropWhile (fun e => e = ',' ∨ ascii_isspace e)
                if cur8 = [] then none
                else
                  ysfx_parse_slider_finish
                    { ysfx_slider_zero with id := id, var := var, defv := defv } cur8
              else if sep = '<' then
                ysfx_parse_slider_range id var defv rest7
              else none

/-- Truncation of a `double` cast to a C integer type (rounds toward
zero). -/
def rat_trunc (q : ℚ) : ℤ :=
  if q < 0 then -((-q).floor) else q.floor

/-- C source `ysfx.h`: `ysfx_max_channels` (modelled from the spec: the
header is not under `sources/`; JSFX exposes 64 sample channels). -/
def ysfx_max_channels : ℕ := 64

/-- C source `ysfx_parse.hpp`: one `config:` item. -/
structure ysfx_config_item where
  identifier : String
  name : String
  default_value : ℚ
  var_names : List String
  var_values : List ℚ
  deriving DecidableEq, Repr

/-- C source `ysfx_parse.cpp` lines 142-180, the named-value loop of
`ysfx_parse_config_line`.  Each round skips whitespace, reads a value
(stopping the loop when nothing converts), takes the consumed text as
the key, and lets an `= name` part (with optional single/double quoting,
the closing quote kept for other quote characters, exactly as in the
source) override the key.  The fuel is the remaining text length plus
one; every round consumes at least one character, so the fuel never runs
out. -/
def config_vars_loop : ℕ → List Char → List String → List ℚ →
    List String × List ℚ
  | 0, _, names, values => (names, values)
  | fuel + 1, cur, names, values =>
    if cur = [] then (names, values)
    else
      let cur1 := cur.dropWhile ascii_isspace
      let (value, pos) := dot_strtod cur1
      if pos.length = cur1.length then (names, values)
      else
        let key0 := String.mk (cur1.take (cur1.length - pos.length))
        let cur3 := pos.dropWhile ascii_isspace
        match cur3 with
        | c3 :: tail3 =>
          if c3 = '=' then
            let cur4 := tail3.dropWhile ascii_isspace
            match cur4 with
            | [] => config_vars_loop fuel cur4 (names ++ [key0]) (values ++ [value])
            | c4 :: tail4 =>
              let closing := if c4 = cQuote ∨ c4 = cApos then c4 else ' '
              let scanned := tail4.takeWhile (fun e => e ≠ closing)
              let restc := tail4.dropWhile (fun e => e ≠ closing)
              let key :=
                if closing = cQuote then String.mk scanned
                else if closing = ' ' then String.mk (c4 :: scanned)
                else
                  String.mk (c4 :: scanned ++ (if restc = [] then [] else [closing]))
              let cur5 := if restc = [] then restc else restc.tail
              config_vars_loop fuel cur5 (names ++ [key]) (values ++ [value])
          else config_vars_loop fuel cur3 (names ++ [key0]) (values ++ [value])
        | [] => config_vars_loop fuel cur3 (names ++ [key0]) (values ++ [value])

/-- C source `ysfx_parse.cpp` lines 103-183: `ysfx_parse_config_line`.
The identifier runs to the first whitespace; the display name is
optionally quoted (a single-quoted name keeps its opening quote, as in
the source); then the default value and the named-value list follow.
Pointer positions one past the terminator (the source forms `pos + 1`
without checking `*pos`) are modelled by the empty remainder. -/
def ysfx_parse_config_line (rest : List Char) : ysfx_config_item :=
  let cur := rest.dropWhile ascii_isspace
  let identifier := String.mk (cur.takeWhile (fun c => ¬ ascii_isspace c))
  let pos1 := (cur.dropWhile (fun c => ¬ ascii_isspace c)).dropWhile ascii_isspace
  match pos1 with
  | [] =>
    { identifier := identifier, name := "", default_value := 0,
      var_names := [], var_values := [] }
  | c :: tail =>
    let closing := if c = cQuote ∨ c = cApos then c else ' '
    match tail with
    | [] =>
      { identifier := identifier, name := "", default_value := 0,
        var_names := [], var_values := [] }
    | _ =>
      let scanned := tail.takeWhile (fun e => e ≠ closing)
      let restc := tail.dropWhile (fun e => e ≠ closing)
      let name :=
        if closing = cQuote then String.mk scanned else String.mk (c :: scanned)
      let cur2 := if restc = [] then ([] : List Char) else restc.tail
      let cur3 := cur2.dropWhile ascii_isspace
      let (value, pos2) := dot_strtod cur3
      if pos2.length = cur3.length then
        { identifier := identifier, name := name, default_value := value,
          var_names := [], var_values := [] }
      else
        let cur4 := match pos2 with | [] => ([] : List Char) | _ :: t => t
        let (vnames, vvalues) := config_vars_loop (cur4.length + 1) cur4 [] []
        { identifier := identifier, name := name, default_value := value,
          var_names := vnames, var_values := vvalues }

/-- C source `ysfx_parse.cpp` lines 185-197: `ysfx_config_item_is_valid`.
The fifth test compares `var_names.size()` with itself, exactly as in
the source (it never fails). -/
def ysfx_config_item_is_valid (item : ysfx_config_item) : Bool :=
  if item.identifier.length < 2 then false
  else if item.name.length < 2 then false
  else if item.var_names.length < 2 then false
  else if item.var_values.length < 2 then false
  else if item.var_names.length ≠ item.var_names.length then false
  else item.var_names.all (fun v => v ≠ "")

/-- C source `ysfx_parse.hpp`: the `options:` record of a header.  The
defaults are modelled from the spec (`maxmem` 0 selects the 8 MiB
default at compile time; `gfx_hz` falls back to 30). -/
structure ysfx_header_options_t where
  gmem : String
  maxmem : ℕ
  prealloc : ℤ
  want_all_kb : Bool
  no_meter : Bool
  gfx_hz : ℕ
  deriving DecidableEq, Repr

/-- The default-constructed options record. -/
def ysfx_header_options_zero : ysfx_header_options_t :=
  { gmem := "", maxmem := 0, prealloc := 0, want_all_kb := false,
    no_meter := false, gfx_hz := 30 }

/-- C source `ysfx_parse.hpp`: the parsed header. -/
structure ysfx_header_t where
  desc : String
  author : String
  tags : List String
  explicit_pins : Bool
  in_pins : List String
  out_pins : List String
  config_items : List ysfx_config_item
  options : ysfx_header_options_t
  imports : List String
  sliders : List ysfx_slider_t
  filenames : List String
  deriving DecidableEq, Repr

/-- The header value `ysfx_header_t{}` starts from: all empty, with the
256 slider slots zero-initialized. -/
def ysfx_header_zero : ysfx_header_t :=
  { desc := "", author := "", tags := [], explicit_pins := false,
    in_pins := [], out_pins := [], config_items := [],
    options := ysfx_header_options_zero, imports := [],
    sliders := List.replicate ysfx_max_sliders ysfx_slider_zero,
    filenames := [] }

/-- C source `ysfx_parse.hpp`: a parse error carries the line and a
message. -/
structure ysfx_parse_error where
  line : ℕ
  message : String
  deriving DecidableEq, Repr

/-- C source `ysfx_parse.hpp`: one parsed `filename:` line. -/
structure ysfx_parsed_filename_t where
  index : ℕ
  filename : String
  deriving DecidableEq, Repr

/-- C source `ysfx_parse.cpp` lines 542-565: `ysfx_parse_filename`:
an exact `filename:` prefix, a non-negative index that fits `uint32`,
then everything after the next comma. -/
def ysfx_parse_filename (line : String) : Option ysfx_parsed_filename_t :=
  if ¬ str_prefix "filename:" line then none
  else
    let cur := line.data.drop 9
    let (v, cur2) := dot_strtod cur
    let index := rat_trunc v
    if index < 0 ∨ (4294967295 : ℤ) < index then none
    else
      match cur2.dropWhile (fun c => c ≠ ',') with
      | [] => none
      | _ :: rest =>
        some { index := index.toNat, filename := String.mk rest }

/-- Modelled from the spec: `ysfx::trim_spaces_around_equals` of
`ysfx_utils.cpp` (not under `sources/`): normalize `key = value` tokens
to `key=value` by deleting spaces adjacent to `=`. -/
def trim_spaces_around_equals (s : List Char) : List Char :=
  let noBefore :=
    s.foldr (fun c acc => if c = ' ' ∧ acc.head? = some '=' then acc else c :: acc) []
  (noBefore.foldl
    (fun acc c => if c = ' ' ∧ acc.head? = some '=' then acc else c :: acc) []).reverse

/-- C source `ysfx_parse.cpp` lines 273-297, one `options:` token:
split at the first `=`, then update the known option; unknown names are
ignored. -/
def ysfx_parse_one_option (opts : ysfx_header_options_t) (opt : String) :
    ysfx_header_options_t :=
  let name := String.mk (opt.data.takeWhile (fun c => c ≠ '='))
  let value :=
    if name.length = opt.length then ""
    else String.mk ((opt.data.drop (name.length + 1)))
  if name = "gmem" then { opts with gmem := value }
  else if name = "maxmem" then
    let maxmem := rat_trunc (dot_atof value.data)
    { opts with maxmem := if maxmem < 0 then 0 else maxmem.toNat }
  else if name = "prealloc" then
    { opts with prealloc := if value = "*" then -1 else rat_trunc (dot_atof value.data) }
  else if name = "want_all_kb" then { opts with want_all_kb := true }
  else if name = "no_meter" then { opts with no_meter := true }
  else if name = "gfx_hz" then
    let gfx_hz := rat_trunc (dot_atof value.data)
    if 0 < gfx_hz ∧ gfx_hz < 2000 then { opts with gfx_hz := gfx_hz.toNat } else opts
  else opts

/-- Split a character list at every LF (the pieces do not contain the
separator; a trailing LF yields a final empty piece). -/
def split_newlines : List Char → List (List Char)
  | [] => [[]]
  | c :: rest =>
    let r := split_newlines rest
    if c = Char.ofNat 10 then [] :: r else (c :: r.headD []) :: r.tail

/-- Modelled from the spec: `ysfx::string_text_reader` of
`ysfx_utils.cpp` (not under `sources/`): yield the text line by line,
without terminators (a trailing CR is stripped; a final newline does not
produce an extra empty line). -/
def text_reader_lines (text : String) : List String :=
  if text.data = [] then []
  else
    let parts := split_newlines text.data
    let parts := if parts.getLast? = some [] then parts.dropLast else parts
    parts.map (fun l =>
      String.mk (if l.getLast? = some (Char.ofNat 13) then l.dropLast else l))

/-- C source `ysfx_parse.cpp` lines 223-314, pass 1 of
`ysfx_parse_header`: recognize the metadata prefixes line by line; a
valid `config:` item whose lower-cased identifier was already seen stops
everything with the duplicate error; slider and filename lines that
parse but are rejected (out-of-range id, non-consecutive filename index)
skip the line-number increment, exactly like the `continue` statements
in the source. -/
def ysfx_parse_header_pass1 :
    List String → ℕ → ysfx_header_t → List String →
      Except ysfx_parse_error (ysfx_header_t × List String)
  | [], _, header, ids => .ok (header, ids)
  | line :: rest, lineno, header, ids =>
    if str_prefix "desc:" line then
      let header :=
        if header.desc = "" then
          { header with desc := String.mk (ysfx_trim (str_drop line 5).data) }
        else header
      ysfx_parse_header_pass1 rest (lineno + 1) header ids
    else if str_prefix "author:" line then
      let header :=
        if header.author = "" then
          { header with author := String.mk (ysfx_trim (str_drop line 7).data) }
        else header
      ysfx_parse_header_pass1 rest (lineno + 1) header ids
    else if str_prefix "tags:" line then
      let header :=
        if header.tags = [] then
          { header with tags := split_strings_noempty (str_drop line 5).data ascii_isspace }
        else header
      ysfx_parse_header_pass1 rest (lineno + 1) header ids
    else if str_prefix "in_pin:" line then
      ysfx_parse_header_pass1 rest (lineno + 1)
        { header with
          explicit_pins := true,
          in_pins := header.in_pins ++ [String.mk (ysfx_trim (str_drop line 7).data)] } ids
    else if str_prefix "out_pin:" line then
      ysfx_parse_header_pass1 rest (lineno + 1)
        { header with
          explicit_pins := true,
          out_pins := header.out_pins ++ [String.mk (ysfx_trim (str_drop line 8).data)] } ids
    else if str_prefix "config:" line then
      let item := ysfx_parse_config_line (str_drop line 7).data
      if ysfx_config_item_is_valid item then
        let identifier := String.mk (item.identifier.data.map ascii_tolower)
        if identifier ∈ ids then
          .error { line := lineno,
                   message := "Duplicate config variable: " ++ item.identifier }
        else
          ysfx_parse_header_pass1 rest (lineno + 1)
            { header with config_items := header.config_items ++ [item] }
            (identifier :: ids)
      else ysfx_parse_header_pass1 rest (lineno + 1) header ids
    else if str_prefix "options:" line then
      let option_line := trim_spaces_around_equals (str_drop line 8).data
      let opts :=
        (split_strings_noempty option_line ascii_isspace).foldl
          ysfx_parse_one_option header.options
      ysfx_parse_header_pass1 rest (lineno + 1) { header with options := opts } ids
    else if str_prefix "import" line ∧ (str_drop line 6).data.head?.any ascii_isspace then
      ysfx_parse_header_pass1 rest (lineno + 1)
        { header with imports := header.imports ++ [String.mk (ysfx_trim (str_drop line 7).data)] }
        ids
    else
      match ysfx_parse_slider line with
      | some slider =>
        if ysfx_max_sliders ≤ slider.id then
          ysfx_parse_header_pass1 rest lineno header ids
        else
          ysfx_parse_header_pass1 rest (lineno + 1)
            { header with
              sliders := header.sliders.set slider.id { slider with exists_flag := true } }
            ids
      | none =>
        match ysfx_parse_filename line with
        | some fn =>
          if fn.index ≠ header.filenames.length then
            ysfx_parse_header_pass1 rest lineno header ids
          else
            ysfx_parse_header_pass1 rest (lineno + 1)
              { header with filenames := header.filenames ++ [fn.filename] } ids
        | none => ysfx_parse_header_pass1 rest (lineno + 1) header ids

/-- C source `ysfx_parse.cpp` lines 319-338, pass 2 of
`ysfx_parse_header`: comment-form `//author:` and `//tags:` lines fill
the gaps pass 1 left empty. -/
def ysfx_parse_header_pass2 : List String → ysfx_header_t → ysfx_header_t
  | [], header => header
  | line :: rest, header =>
    if str_prefix "//author:" line then
      let header :=
        if header.author = "" then
          { header with author := String.mk (ysfx_trim (str_drop line 9).data) }
        else header
      ysfx_parse_header_pass2 rest header
    else if str_prefix "//tags:" line then
      let header :=
        if header.tags = [] then
          { header with tags := split_strings_noempty (str_drop line 7).data ascii_isspace }
        else header
      ysfx_parse_header_pass2 rest header
    else ysfx_parse_header_pass2 rest header

/-- C source `ysfx_parse.cpp` lines 199-352: `ysfx_parse_header`.  The
only failure is the duplicate `config:` identifier; afterwards a single
pin literally named `none` (ASCII case-insensitively) clears that pin
list and both pin lists are capped at the channel maximum. -/
def ysfx_parse_header (sec : ysfx_section_t) :
    Except ysfx_parse_error ysfx_header_t :=
  let lines := text_reader_lines sec.text
  match ysfx_parse_header_pass1 lines sec.line_offset ysfx_header_zero [] with
  | .error e => .error e
  | .ok (header1, _) =>
    let header2 := ysfx_parse_header_pass2 lines header1
    let header3 :=
      if header2.in_pins.length = 1 ∧
          ascii_caseeq (header2.in_pins.headD "") "none" then
        { header2 with in_pins := [] }
      else header2
    let header4 :=
      if header3.out_pins.length = 1 ∧
          ascii_caseeq (header3.out_pins.headD "") "none" then
        { header3 with out_pins := [] }
      else header3
    .ok { header4 with
          in_pins := header4.in_pins.take ysfx_max_channels,
          out_pins := header4.out_pins.take ysfx_max_channels }

/-- C source `ysfx.cpp` lines 627-647, the per-slider body of
`ysfx_fix_invalid_enums`: a non-enum slider is untouched; an enum slider
with no names gains a single empty name and the range `<0,0,1>` (with a
warning); an enum slider whose range is not `<0,count-1,1>` is reset to
exactly that (with a warning).  The boolean reports whether a warning
was logged. -/
def ysfx_fix_invalid_enums_slider (slider : ysfx_slider_t) :
    ysfx_slider_t × Bool :=
  if ¬ slider.is_enum then (slider, false)
  else
    let count := slider.enum_names.length
    if count = 0 then
      ({ slider with enum_names := [""], min := 0, max := 0, inc := 1 }, true)
    else if slider.min ≠ 0 ∨ slider.inc ≠ 1 ∨ slider.max ≠ (count : ℚ) - 1 then
      ({ slider with min := 0, max := (count : ℚ) - 1, inc := 1 }, true)
    else (slider, false)

/-- C source `ysfx.cpp` lines 622-648: `ysfx_fix_invalid_enums`, over
the 256 slider slots of the loaded main header. -/
def ysfx_fix_invalid_enums (sliders : List ysfx_slider_t) : List ysfx_slider_t :=
  sliders.map (fun s => (ysfx_fix_invalid_enums_slider s).1)

/-! ## RPL bank text codec (ysfx_preset.cpp)

The WDL `LineParser` and the base64 codec live outside `sources/` and
are modelled from the spec; everything else mirrors
`ysfx_preset.cpp`. -/

/-- Modelled from the spec: the WDL `LineParser` token scan, a
"quote/backtick-aware line tokenizer": space and tab separate tokens; a
token starting with a double quote, single quote or backtick runs to the
matching close character, which is stripped (newlines are *not*
separators: the spec has the file loader turn them into spaces before
tokenizing).  `parse` never fails in this model. -/
def lineparse_tokens : List Char → List String
  | [] => []
  | c :: rest =>
    if c = ' ' ∨ c.toNat = 9 then lineparse_tokens rest
    else if c = cQuote ∨ c = cApos ∨ c = cBacktick then
      String.mk (rest.takeWhile (fun e => e ≠ c)) ::
        lineparse_tokens ((rest.dropWhile (fun e => e ≠ c)).drop 1)
    else
      String.mk (c :: rest.takeWhile (fun e => ¬(e = ' ' ∨ e.toNat = 9))) ::
        lineparse_tokens (rest.dropWhile (fun e => ¬(e = ' ' ∨ e.toNat = 9)))
  termination_by cs => cs.length
  decreasing_by
  · simp
  · simp [List.length_drop]
    have h := (List.dropWhile_sublist (l := rest) (fun e => !decide (e = c))).length_le
    omega
  · simp
    have h := (List.dropWhile_sublist (l := rest)
      (fun e => !decide (e = ' ') && !decide (e.toNat = 9))).length_le
    omega

/-- Modelled from the spec: the base64 alphabet. -/
def base64_alphabet : List Char :=
  "ABCDEFGHIJKLMNOPQRSTUVWXYZabcdefghijklmnopqrstuvwxyz0123456789+/".data

/-- Modelled from the spec: the 6-bit value of one base64 character. -/
def base64_char_val (c : Char) : Option ℕ :=
  (base64_alphabet.indexOf? c).map (fun i => i)

/-- Modelled from the spec: pack the 6-bit groups back into bytes; a
trailing group of 2 or 3 characters yields 1 or 2 bytes. -/
def base64_vals_to_bytes : List ℕ → List ℕ
  | a :: b :: c :: d :: rest =>
    (a * 4 + b / 16) % 256 :: (b % 16 * 16 + c / 4) % 256 :: (c % 4 * 64 + d) % 256 ::
      base64_vals_to_bytes rest
  | [a, b, c] => [(a * 4 + b / 16) % 256, (b % 16 * 16 + c / 4) % 256]
  | [a, b] => [(a * 4 + b / 16) % 256]
  | _ => []

/-- Modelled from the spec: `ysfx::decode_base64` of `ysfx_utils.cpp`
(not under `sources/`): decode the longest valid prefix (an `=` pad or
any other non-alphabet character ends the data). -/
def decode_base64 (s : String) : List ℕ :=
  base64_vals_to_bytes
    ((s.data.takeWhile (fun c => (base64_char_val c).isSome)).filterMap base64_char_val)

/-- Modelled from the spec: split bytes into 6-bit groups with `=`
padding. -/
def base64_bytes_to_chars : List ℕ → List Char
  | x :: y :: z :: rest =>
    base64_alphabet.getD (x / 4) 'A' :: base64_alphabet.getD (x % 4 * 16 + y / 16) 'A' ::
      base64_alphabet.getD (y % 16 * 4 + z / 64) 'A' :: base64_alphabet.getD (z % 64) 'A' ::
        base64_bytes_to_chars rest
  | [x, y] =>
    [base64_alphabet.getD (x / 4) 'A', base64_alphabet.getD (x % 4 * 16 + y / 16) 'A',
     base64_alphabet.getD (y % 16 * 4) 'A', '=']
  | [x] =>
    [base64_alphabet.getD (x / 4) 'A', base64_alphabet.getD (x % 4 * 16) 'A', '=', '=']
  | [] => []

/-- Modelled from the spec: `ysfx::encode_base64` of `ysfx_utils.cpp`
(not under `sources/`).  Bytes are taken modulo 256. -/
def encode_base64 (bytes : List ℕ) : String :=
  String.mk (base64_bytes_to_chars (bytes.map (fun b => b % 256)))

/-- First position of `needle` inside `hay` (`std::string::find`); the
empty needle is found at position 0. -/
def find_sublist : List Char → List Char → Option ℕ
  | hay, needle =>
    if needle.isPrefixOf hay then some 0
    else
      match hay with
      | [] => none
      | _ :: t => (find_sublist t needle).map (fun i => i + 1)

/-- C source `ysfx_preset.cpp` lines 194-224:
`remove_name_from_preset_blob`.  `none` models the empty-string result
("nothing replaced").  Only names with at least one of the three quote
characters are treated; the uniqueness check at line 208 searches for a
6-byte needle (`"name"` plus its terminator plus one stray byte) that
contains a NUL, which the NUL-free blob text can never contain, so it
never aborts.  The scan to the left stops *at* a space (or at index 0)
and steps one to the right, exactly as in the source. -/
def ysfx_remove_name_from_preset_blob (text : List Char) (name : String) :
    Option (List Char × String) :=
  if hasFunkyCharacters name.data &&& 7 = 0 then none
  else
    match find_sublist text name.data with
    | none => none
    | some name_pos =>
      let start_pos :=
        match ((List.range (name_pos + 1)).reverse.find?
            (fun j => text.getD j cNul = ' ')) with
        | some j => j + 1
        | none => 1
      let stop_pos :=
        name_pos + name.length +
          ((text.drop (name_pos + name.length)).takeWhile (fun e => e ≠ ' ')).length
      let replaced_name := String.mk ((text.drop start_pos).take (stop_pos - start_pos))
      some (text.take start_pos ++ List.replicate (stop_pos - start_pos) '_' ++
              text.drop stop_pos,
            replaced_name)

/-- C source `ysfx_preset.cpp` lines 226-313:
`ysfx_parse_preset_from_rpl_blob`.  The bytes up to the first NUL are
the slider/name text (tokenized after the funky-name replacement);
whatever follows the NUL is the raw serialization.  Missing tokens read
as the empty string, which is *not* the skip marker `-`, so short token
lists still produce value-0 sliders, as in the source. -/
def ysfx_parse_preset_from_rpl_blob (name : String) (data : List ℕ) :
    ysfx_preset_t :=
  let pos := (data.takeWhile (fun b => b ≠ 0)).length
  let textChars := (data.take pos).map Char.ofNat
  let pos2 := if pos < data.length then pos + 1 else pos
  let sdata := data.drop pos2
  let removed := ysfx_remove_name_from_preset_blob textChars name
  let text2 := match removed with | some (t, _) => t | none => textChars
  let tokens := lineparse_tokens text2
  let getTok := fun i => tokens.getD i ""
  let sliders1 : List ysfx_state_slider_t :=
    (List.range 64).filterMap (fun i =>
      let str := getTok i
      if str = "-" then none
      else some { index := i, value := dot_atof str.data })
  let str65 := getTok 65
  let blob_name0 : Option String :=
    match removed with
    | some (_, rn) => some rn
    | none => some (escapeString (getTok 64))
  let sliders2 :=
    if str65 ≠ "" then
      sliders1 ++
        (List.range (ysfx_max_sliders - 64)).filterMap (fun i =>
          let str := getTok (i + 65)
          if str = "-" then none
          else some { index := i + 64, value := dot_atof str.data })
    else sliders1
  { name := name,
    blob_name := blob_name0.getD (escapeString name),
    state := { sliders := sliders2, data := sdata } }

/-- C source `ysfx_preset.cpp` lines 128-133, the blob-part loop of
`ysfx_load_bank_from_rpl_text`: concatenate the decoded base64 parts up
to the closing `>` token (or the end), returning the remaining
tokens. -/
def ysfx_load_bank_blob_parts : List String → List ℕ × List String
  | [] => ([], [])
  | tok :: rest =>
    if tok = ">" then ([], rest)
    else
      let (bytes, rem) := ysfx_load_bank_blob_parts rest
      (decode_base64 tok ++ bytes, rem)

/-- C source `ysfx_preset.cpp` lines 121-140, the preset loop of
`ysfx_load_bank_from_rpl_text`: tokens other than `<PRESET` are
skipped; a `<PRESET` consumes the name token and the base64 parts.  The
fuel is the token count; every round consumes at least one token, so it
never runs out. -/
def ysfx_load_bank_loop : ℕ → List String → List ysfx_preset_t
  | 0, _ => []
  | _ + 1, [] => []
  | fuel + 1, tok :: rest =>
    if tok = "<PRESET" then
      let preset_name := rest.headD ""
      let (blob, rem) := ysfx_load_bank_blob_parts (rest.drop 1)
      ysfx_parse_preset_from_rpl_blob preset_name blob :: ysfx_load_bank_loop fuel rem
    else ysfx_load_bank_loop fuel rest

/-- C source `ysfx_preset.cpp` lines 97-154: `ysfx_load_bank_from_rpl_text`.
The first token must be `<REAPER_PRESET_LIBRARY`; the second is the bank
name; the rest is the preset loop. -/
def ysfx_load_bank_from_rpl_text (text : String) : Option ysfx_bank_t :=
  let tokens := lineparse_tokens text.data
  match tokens with
  | [] => none
  | tok0 :: rest =>
    if tok0 ≠ "<REAPER_PRESET_LIBRARY" then none
    else
      some { name := rest.headD "",
             presets := ysfx_load_bank_loop (rest.drop 1).length (rest.drop 1) }

/-- C source `ysfx_preset.cpp` lines 40-66: the text preparation of
`ysfx_load_bank`: the file bytes are read with every CR and LF turned
into a space, capped at `2^24` characters, before
`ysfx_load_bank_from_rpl_text` runs. -/
def ysfx_load_bank_text (text : String) : Option ysfx_bank_t :=
  ysfx_load_bank_from_rpl_text
    (String.mk ((text.data.take 16777216).map
      (fun c => if c.toNat = 13 ∨ c.toNat = 10 then ' ' else c)))

/-- Round a non-negative rational to an integer, ties to even (the
rounding `std::ostringstream` applies when printing a `double` with
fixed precision). -/
def rat_round_half_even (q : ℚ) : ℤ :=
  let n := q.floor
  let frac := q - n
  if frac > 1 / 2 then n + 1
  else if frac < 1 / 2 then n
  else if n % 2 = 0 then n else n + 1

/-- C source `ysfx_preset.cpp` lines 391-403: `double_string`: print with
6 fixed decimals, strip trailing zeros and a trailing point, append a
space. -/
def double_string (value : ℚ) : String :=
  let neg := value < 0
  let n := (rat_round_half_even (|value| * 1000000)).toNat
  let fracStr := toString (n % 1000000)
  let raw := (if neg then "-" else "") ++ toString (n / 1000000) ++ "." ++
    String.mk (List.replicate (6 - fracStr.length) '0') ++ fracStr
  let stripped := (raw.data.reverse.dropWhile (fun c => c = '0')).reverse
  let stripped2 := if stripped.getLast? = some '.' then stripped.dropLast else stripped
  String.mk (stripped2 ++ [' '])

/-- C source `ysfx_preset.cpp` lines 456-458: split the base64 text into
lines of 128 characters. -/
def chunk128 : List Char → List (List Char)
  | [] => []
  | c :: cs => (c :: cs).take 128 :: chunk128 ((c :: cs).drop 128)
  termination_by cs => cs.length
  decreasing_by simp [List.length_drop]; omega

/-- C source `ysfx_preset.cpp` lines 405-461: `preset_blob`.  The local
`more_than_64` is initialized `true` and only ever re-assigned `true`
(line 413/419 of the source), so the trailing 192 slider slots are
always serialized.  The slider text, the NUL and the raw data bytes are
base64-encoded and split into indented 128-character lines. -/
def preset_blob (blob_preset_name : String) (state : ysfx_state_t) : String :=
  let slots : ℕ → ℚ × Bool :=
    state.sliders.foldl
      (fun f sl => fun i => if i = sl.index then (sl.value, true) else f i)
      (fun _ => ((0 : ℚ), false))
  let more_than_64 := true
  let first64 :=
    String.join ((List.range 64).map (fun i =>
      if (slots i).2 then double_string (slots i).1 else "- "))
  let tail192 :=
    if more_than_64 then
      String.join ((List.range 192).map (fun i =>
        if (slots (i + 64)).2 then double_string (slots (i + 64)).1 else "- "))
    else ""
  let blobText := first64 ++ blob_preset_name ++ " " ++ tail192
  let blobBytes := (blobText.dropRight 1).data.map Char.toNat ++ [0] ++ state.data
  let base64_preset := encode_base64 blobBytes
  String.join ((chunk128 base64_preset.data).map
    (fun l => "    " ++ String.mk l ++ "\n"))

/-- C source `ysfx_preset.cpp` lines 463-478: `ysfx_save_bank_to_rpl_text`.
The bank name is escaped; every preset name is emitted between backticks
unconditionally. -/
def ysfx_save_bank_to_rpl_text (bank : ysfx_bank_t) : String :=
  "<REAPER_PRESET_LIBRARY " ++ escapeString bank.name ++ "\n" ++
    String.join (bank.presets.map (fun preset =>
      "  <PRESET " ++ String.mk [cBacktick] ++ preset.name ++ String.mk [cBacktick] ++
        "\n" ++ preset_blob preset.blob_name preset.state ++ "  >\n")) ++ ">\n"

/-- The lower-cased identifier of a line that pass 1 of
`ysfx_parse_header` treats as a *valid* `config:` line, following the
branch chain of the source (an earlier prefix match takes the line away
from the `config:` branch); `none` for every other line. -/
def config_id_of_line (line : String) : Option String :=
  if str_prefix "desc:" line then none
  else if str_prefix "author:" line then none
  else if str_prefix "tags:" line then none
  else if str_prefix "in_pin:" line then none
  else if str_prefix "out_pin:" line then none
  else if str_prefix "config:" line then
    let item := ysfx_parse_config_line (str_drop line 7).data
    if ysfx_config_item_is_valid item then
      some (String.mk (item.identifier.data.map ascii_tolower))
    else none
  else none

/-- The error component of a header parse result (`none` when the parse
succeeded). -/
def except_error? : Except ysfx_parse_error ysfx_header_t → Option ysfx_parse_error
  | .error e => some e
  | .ok _ => none

/-- A character that the RPL pipeline treats as completely inert: not a
token separator (space, tab), not a newline the file loader rewrites
(LF, CR), and not one of the three quote characters the tokenizer and
`escapeString` give meaning to. -/
def rpl_plain_char (c : Char) : Bool :=
  !(c = ' ' || c.toNat = 9 || c.toNat = 10 || c.toNat = 13 ||
    c = cQuote || c = cApos || c = cBacktick)

/-! ## Verified properties -/

/-- C6: on an effect that is not compiled, `ysfx_process_generic` (the
body of `ysfx_process_float` / `ysfx_process_double`) copies input
channel `i` unchanged to output channel `i` for every
`i < min(num_ins, num_outs)` and zero-fills every output channel from
`min(num_ins, num_outs)` up to `num_outs`; the function is total, so no
error can be raised. -/
theorem process_uncompiled_passthrough (oracle : nseel_vm_oracle) (fx : ysfx_t)
    (ins : List (List ℚ)) (num_ins num_outs num_frames : ℕ)
    (hnc : fx.code.compiled = false)
    (hlen : ins.length = num_ins)
    (hch : ∀ ch ∈ ins, ch.length = num_frames) :
    (ysfx_process_generic oracle fx ins num_ins num_outs num_frames).length
        = num_outs ∧
    (∀ i, i < min num_ins num_outs →
      (ysfx_process_generic oracle fx ins num_ins num_outs num_frames).getD i []
        = ins.getD i []) ∧
    (∀ i, min num_ins num_outs ≤ i → i < num_outs →
      (ysfx_process_generic oracle fx ins num_ins num_outs num_frames).getD i []
        = List.replicate num_frames 0) := by
  have hout : ysfx_process_generic oracle fx ins num_ins num_outs num_frames =
      (List.range num_outs).map (fun ch =>
        if ch < min num_ins num_outs then (ins.getD ch []).take num_frames
        else List.replicate num_frames 0) := by
    simp [ysfx_process_generic, hnc]
  refine ⟨by simp [hout], ?_, ?_⟩
  · intro i hi
    have hilt : i < num_outs := lt_of_lt_of_le hi (min_le_right _ _)
    have hins : i < ins.length := by
      rw [hlen]; exact lt_of_lt_of_le hi (min_le_left _ _)
    have hgd : ins.getD i [] ∈ ins := by
      rw [List.getD_eq_getElem?_getD, List.getElem?_eq_getElem hins]
      exact List.getElem_mem hins
    have hlen2 : (ins.getD i []).length = num_frames := hch _ hgd
    rw [hout, List.getD_eq_getElem?_getD, List.getElem?_map, List.getElem?_range hilt]
    simp only [Option.map_some', Option.getD_some]
    rw [if_pos hi, ← hlen2, List.take_length]
  · intro i hge hlt
    rw [hout, List.getD_eq_getElem?_getD, List.getElem?_map, List.getElem?_range hlt]
    simp only [Option.map_some', Option.getD_some]
    rw [if_neg (Nat.not_lt.mpr hge)]

/-- Witness for `process_uncompiled_passthrough` at a concrete effect
and buffers. -/
theorem process_uncompiled_passthrough_witness :
    (ysfx_process_generic
        { compile_ok := fun _ => true, process_compiled := fun _ _ _ _ _ => [] }
        { source := { main := none, imports := [] }, code := ysfx_code_empty,
          is_freshly_compiled := false, must_compute_init := false,
          must_compute_slider := false, has_serialize := false }
        [[1, 2], [3, 4]] 2 3 2).length = 3 ∧
    (∀ i, i < min 2 3 →
      (ysfx_process_generic
        { compile_ok := fun _ => true, process_compiled := fun _ _ _ _ _ => [] }
        { source := { main := none, imports := [] }, code := ysfx_code_empty,
          is_freshly_compiled := false, must_compute_init := false,
          must_compute_slider := false, has_serialize := false }
        [[1, 2], [3, 4]] 2 3 2).getD i [] = [[1, 2], [3, 4]].getD i []) ∧
    (∀ i, min 2 3 ≤ i → i < 3 →
      (ysfx_process_generic
        { compile_ok := fun _ => true, process_compiled := fun _ _ _ _ _ => [] }
        { source := { main := none, imports := [] }, code := ysfx_code_empty,
          is_freshly_compiled := false, must_compute_init := false,
          must_compute_slider := false, has_serialize := false }
        [[1, 2], [3, 4]] 2 3 2).getD i [] = List.replicate 2 (0 : ℚ)) :=
  process_uncompiled_passthrough _ _ _ _ _ _ rfl rfl (by decide)

/-- C9: after a successful load (that is, after `ysfx_fix_invalid_enums`
ran over the loaded sliders), every enum slider satisfies the range
invariant `<0, count-1, 1>` with `count` its number of enum names; a
slider whose declared range differed from `<0, count-1, 1>` was logged
as a warning; and for a slider with at least one enum name the corrected
range is exactly `<0, count-1, 1>` for its *declared* name count, with
the names untouched — in particular `<5,10,2>` with 3 enum names becomes
`<0,2,1>`. -/
theorem fix_invalid_enums_corrects_range (sliders : List ysfx_slider_t) (i : ℕ)
    (hi : i < sliders.length)
    (he : (sliders.getD i ysfx_slider_zero).is_enum = true) :
    (ysfx_fix_invalid_enums sliders).getD i ysfx_slider_zero
        = (ysfx_fix_invalid_enums_slider (sliders.getD i ysfx_slider_zero)).1 ∧
    (((ysfx_fix_invalid_enums sliders).getD i ysfx_slider_zero).min = 0 ∧
      ((ysfx_fix_invalid_enums sliders).getD i ysfx_slider_zero).inc = 1 ∧
      ((ysfx_fix_invalid_enums sliders).getD i ysfx_slider_zero).max =
        ((((ysfx_fix_invalid_enums sliders).getD i
            ysfx_slider_zero).enum_names.length : ℚ) - 1)) ∧
    (((sliders.getD i ysfx_slider_zero).min ≠ 0 ∨
        (sliders.getD i ysfx_slider_zero).inc ≠ 1 ∨
        (sliders.getD i ysfx_slider_zero).max ≠
          (((sliders.getD i ysfx_slider_zero).enum_names.length : ℚ) - 1)) →
      (ysfx_fix_invalid_enums_slider (sliders.getD i ysfx_slider_zero)).2 = true) ∧
    (1 ≤ (sliders.getD i ysfx_slider_zero).enum_names.length →
      ((ysfx_fix_invalid_enums sliders).getD i ysfx_slider_zero).min = 0 ∧
      ((ysfx_fix_invalid_enums sliders).getD i ysfx_slider_zero).inc = 1 ∧
      ((ysfx_fix_invalid_enums sliders).getD i ysfx_slider_zero).max =
        (((sliders.getD i ysfx_slider_zero).enum_names.length : ℚ) - 1) ∧
      ((ysfx_fix_invalid_enums sliders).getD i ysfx_slider_zero).enum_names =
        (sliders.getD i ysfx_slider_zero).enum_names) := by
  set s := sliders.getD i ysfx_slider_zero with hs
  have hmap : (ysfx_fix_invalid_enums sliders).getD i ysfx_slider_zero
      = (ysfx_fix_invalid_enums_slider s).1 := by
    rw [hs, ysfx_fix_invalid_enums, List.getD_eq_getElem?_getD,
      List.getD_eq_getElem?_getD, List.getElem?_map,
      List.getElem?_eq_getElem hi]
    rfl
  rw [hmap]
  unfold ysfx_fix_invalid_enums_slider
  rw [if_neg (by simp [he])]
  by_cases hc : s.enum_names.length = 0
  · rw [if_pos hc]
    refine ⟨rfl, by norm_num, fun _ => rfl, ?_⟩
    intro h1
    omega
  · rw [if_neg hc]
    by_cases hm : s.min ≠ 0 ∨ s.inc ≠ 1 ∨ s.max ≠ ((s.enum_names.length : ℚ) - 1)
    · rw [if_pos hm]
      exact ⟨rfl, by norm_num, fun _ => rfl, fun _ => by norm_num⟩
    · rw [if_neg hm]
      push_neg at hm
      obtain ⟨h1, h2, h3⟩ := hm
      exact ⟨rfl, ⟨h1, h2, h3⟩, fun hcon => by tauto,
        fun _ => ⟨h1, h2, h3, rfl⟩⟩

/-- Witness for `fix_invalid_enums_corrects_range`: the claim's own
example, `<5,10,2>` with three enum names, ends up `<0,2,1>` with a
warning. -/
theorem fix_invalid_enums_corrects_range_witness :
    ((ysfx_fix_invalid_enums
        [{ ysfx_slider_zero with
           is_enum := true, min := 5, max := 10, inc := 2,
           enum_names := ["a", "b", "c"] }]).getD 0 ysfx_slider_zero).min = 0 ∧
    ((ysfx_fix_invalid_enums
        [{ ysfx_slider_zero with
           is_enum := true, min := 5, max := 10, inc := 2,
           enum_names := ["a", "b", "c"] }]).getD 0 ysfx_slider_zero).inc = 1 ∧
    ((ysfx_fix_invalid_enums
        [{ ysfx_slider_zero with
           is_enum := true, min := 5, max := 10, inc := 2,
           enum_names := ["a", "b", "c"] }]).getD 0 ysfx_slider_zero).max
      = ((3 : ℚ) - 1) ∧
    (ysfx_fix_invalid_enums_slider
        { ysfx_slider_zero with
          is_enum := true, min := 5, max := 10, inc := 2,
          enum_names := ["a", "b", "c"] }).2 = true :=
  have h := fix_invalid_enums_corrects_range
    [{ ysfx_slider_zero with
       is_enum := true, min := 5, max := 10, inc := 2,
       enum_names := ["a", "b", "c"] }] 0 (by decide) (by decide)
  ⟨(h.2.2.2 (by decide)).1, (h.2.2.2 (by decide)).2.1,
    by simpa using (h.2.2.2 (by decide)).2.2.1,
    h.2.2.1 (by decide)⟩

/-- C4: import resolution is post-order and de-duplicated: in the
diamond (A imports B and C; B and C import D) the accumulated import
list is `[D, B, C]`, so `ysfx_compile` compiles the `@init` sections in
the order `[D, B, C, A]` — D exactly once, before B and C, which come
before the main file A — and an import chain nested beyond 32 levels
makes the load fail. -/
theorem import_diamond_postorder_dedup_depth :
    ysfx_load_file_imports diamond_env ["B", "C"] "A" = some ["D", "B", "C"] ∧
    ysfx_compile_init_order diamond_env ["B", "C"] "A"
      = some ["D", "B", "C", "A"] ∧
    ((ysfx_compile_init_order diamond_env ["B", "C"] "A").getD []).count "D" = 1 ∧
    ysfx_load_file_imports chain_env ["i"] "main" = none := by
  refine ⟨by decide, by decide, by decide, by decide⟩

/-- C7 (counterexample): `slider1:0.5<0.00005,1,0.01:log=0.00005>x`
carries an explicit shape modifier that is exactly equal to `min`
(difference 0) over a non-degenerate range, yet the parsed slider keeps
shape 1 (log): because `|modifier| < 1e-4`, the source only applies the
sqr check and skips the modifier-near-min check, so the shape is *not*
downgraded to linear as the claim states. -/
theorem parse_slider_log_modifier_min_cex :
    ((ysfx_parse_slider "slider1:0.5<0.00005,1,0.01:log=0.00005>x").map
        (fun s => (s.shape, s.shape_modifier - s.min, s.max - s.min)))
      = some (1, 0, 19999 / 20000) := by
  have h1 : "slider".length = 6 := rfl
  have h2 : "log".length = 3 := rfl
  have h3 : "sqr".length = 3 := rfl
  simp [ysfx_parse_slider, strnicmp_eq, ascii_tolower, ysfx_strtoul, ascii_isspace,
    digits_to_nat, find_eq_before_angle, dot_strtod, ysfx_parse_slider_range,
    ysfx_parse_slider_inc, ysfx_parse_slider_shaping, ysfx_slider_shape_checks,
    ysfx_parse_slider_after_range, ysfx_parse_slider_finish, ysfx_trim,
    ysfx_slider_zero, ysfx_max_sliders, split_strings_noempty, h1, h2, h3,
    Char.isDigit]
  rw [abs_of_nonneg (by norm_num : (0:ℚ) ≤ 1 - 5 / 10 ^ 5),
    abs_of_nonneg (by norm_num : (0:ℚ) ≤ 5 / 10 ^ 5)]
  norm_num

/-- C7 (amended): the modifier sanity block of `ysfx_parse_slider`
downgrades the shape to linear exactly when the range is degenerate
(`|max-min| < 1e-12`), or the shape is sqr with `|modifier| < 1e-4`, or
`|modifier| ≥ 1e-4` and the modifier is within `1e-7` of `min` (the
near-min check is *skipped* for modifiers below `1e-4` in magnitude). -/
theorem shape_checks_characterization (shape : ℕ) (md mn mx : ℚ) :
    ysfx_slider_shape_checks shape md mn mx = 0 ↔
      (shape = 0 ∨ |mx - mn| < 1 / 1000000000000 ∨
        (|md| < 1 / 10000 ∧ shape = 2) ∨
        (1 / 10000 ≤ |md| ∧ |md - mn| < 1 / 10000000)) := by
  show (if |mx - mn| < 1 / 1000000000000 then 0
    else if |md| < 1 / 10000 then (if shape = 2 then 0 else shape)
    else if |md - mn| < 1 / 10000000 then 0 else shape) = 0 ↔ _
  by_cases hdeg : |mx - mn| < 1 / 1000000000000
  · simp only [if_pos hdeg]
    exact ⟨fun _ => Or.inr (Or.inl hdeg), fun _ => trivial⟩
  · simp only [if_neg hdeg]
    by_cases hm : |md| < 1 / 10000
    · simp only [if_pos hm]
      by_cases hs2 : shape = 2
      · simp only [if_pos hs2]
        exact ⟨fun _ => Or.inr (Or.inr (Or.inl ⟨hm, hs2⟩)), fun _ => trivial⟩
      · simp only [if_neg hs2]
        constructor
        · intro h0; exact Or.inl h0
        · rintro (h0 | hdeg2 | ⟨_, hs⟩ | ⟨hge, _⟩)
          · exact h0
          · exact absurd hdeg2 hdeg
          · exact absurd hs hs2
          · exact absurd hm (not_lt.mpr hge)
    · simp only [if_neg hm]
      by_cases hn : |md - mn| < 1 / 10000000
      · simp only [if_pos hn]
        exact ⟨fun _ => Or.inr (Or.inr (Or.inr ⟨not_lt.mp hm, hn⟩)), fun _ => trivial⟩
      · simp only [if_neg hn]
        constructor
        · intro h0; exact Or.inl h0
        · rintro (h0 | hdeg2 | ⟨hlt, _⟩ | ⟨_, hn2⟩)
          · exact h0
          · exact absurd hdeg2 hdeg
          · exact absurd hlt hm
          · exact absurd hn2 hn

/-- Witness for `shape_checks_characterization` at concrete values: a
sqr shape with modifier `1/20000` over the range `[0, 1]` is downgraded
to linear. -/
theorem shape_checks_characterization_witness :
    ysfx_slider_shape_checks 2 (1 / 20000) 0 1 = 0 ↔
      ((2 : ℕ) = 0 ∨ |(1 : ℚ) - 0| < 1 / 1000000000000 ∨
        (|(1 : ℚ) / 20000| < 1 / 10000 ∧ (2 : ℕ) = 2) ∨
        ((1 : ℚ) / 10000 ≤ |(1 : ℚ) / 20000| ∧
          |(1 : ℚ) / 20000 - 0| < 1 / 10000000)) :=
  shape_checks_characterization 2 (1 / 20000) 0 1

/-- The per-entry copy is the identity on values. -/
theorem ysfx_preset_dup_eq (p : ysfx_preset_t) : ysfx_preset_dup p = p := rfl

/-- When no entry matches, the `ysfx_preset_exists` scan keeps its
accumulator. -/
theorem preset_exists_loop_not_mem :
    ∀ (l : List ysfx_preset_t) (nm : String) (i f : ℕ),
      (∀ p ∈ l, p.name ≠ nm) → ysfx_preset_exists_loop l nm i f = f := by
  intro l
  induction l with
  | nil => intro nm i f _; rfl
  | cons p rest ih =>
    intro nm i f h
    have hp : p.name ≠ nm := h p (List.mem_cons_self _ _)
    simp only [ysfx_preset_exists_loop, if_neg hp]
    exact ih nm (i + 1) f (fun q hq => h q (List.mem_cons_of_mem _ hq))

/-- When some entry matches, the `ysfx_preset_exists` scan returns one
plus the offset of the *last* matching entry. -/
theorem preset_exists_loop_spec :
    ∀ (l : List ysfx_preset_t) (nm : String) (i f : ℕ),
      (∃ p ∈ l, p.name = nm) →
      ∃ k p, l[k]? = some p ∧ p.name = nm ∧
        ysfx_preset_exists_loop l nm i f = i + k + 1 ∧
        (∀ j q, k < j → l[j]? = some q → q.name ≠ nm) := by
  intro l
  induction l with
  | nil => intro nm i f h; simp at h
  | cons p rest ih =>
    intro nm i f _
    by_cases hrest : ∃ q ∈ rest, q.name = nm
    · obtain ⟨k, q, hget, hname, hloop, hlast⟩ := ih nm (i + 1)
        (if p.name = nm then i + 1 else f) hrest
      refine ⟨k + 1, q, by simpa using hget, hname, ?_, ?_⟩
      · simp only [ysfx_preset_exists_loop]
        rw [hloop]; omega
      · intro j r hj hgetj
        match j, hgetj with
        | j' + 1, hgetj => exact hlast j' r (by omega) (by simpa using hgetj)
    · have hp : p.name = nm := by
        rcases ‹∃ q ∈ p :: rest, q.name = nm› with ⟨q, hq, hqn⟩
        rcases List.mem_cons.mp hq with h | h
        · exact h ▸ hqn
        · exact absurd ⟨q, h, hqn⟩ hrest
      refine ⟨0, p, by simp, hp, ?_, ?_⟩
      · simp only [ysfx_preset_exists_loop, if_pos hp]
        rw [preset_exists_loop_not_mem rest nm (i + 1) (i + 1)
          (fun q hq hqn => hrest ⟨q, hq, hqn⟩)]
      · intro j r hj hgetj
        match j, hgetj with
        | j' + 1, hgetj =>
          intro hrn
          have hmem : r ∈ rest := by
            have h' : rest[j']? = some r := by simpa using hgetj
            exact List.getElem?_mem h'
          exact hrest ⟨r, hmem, hrn⟩

/-- The delete copy loop erases exactly the entry at offset
`skip - i` (and copies everything when `skip` lies before `i` or past
the end). -/
theorem delete_copy_loop_spec :
    ∀ (l : List ysfx_preset_t) (skip i : ℕ),
      ysfx_delete_copy_loop skip l i =
        if skip < i then l else l.eraseIdx (skip - i) := by
  intro l
  induction l with
  | nil => intro skip i; simp [ysfx_delete_copy_loop]
  | cons p rest ih =>
    intro skip i
    simp only [ysfx_delete_copy_loop]
    by_cases hlt : skip < i
    · rw [if_neg (by omega : ¬ i = skip), ih, if_pos (by omega), if_pos hlt,
        ysfx_preset_dup_eq]
    · by_cases heq : i = skip
      · rw [if_pos heq, ih, if_pos (by omega), if_neg hlt, heq,
          Nat.sub_self, List.eraseIdx_cons_zero]
      · rw [if_neg heq, ih, if_neg (by omega), if_neg hlt, ysfx_preset_dup_eq]
        have hgt : i < skip := by omega
        have : skip - i = (skip - (i + 1)) + 1 := by omega
        rw [this, List.eraseIdx_cons_succ]

/-- C10: deleting a preset whose name does not occur returns a bank
equal to the input (same name, same presets in the same order, count
unchanged): `found` is 0, so the `uint32` skip index `2^32 - 1` is out
of range and every entry is copied. -/
theorem delete_absent_preset_is_deep_copy (bank : ysfx_bank_t) (nm : String)
    (habs : ∀ p ∈ bank.presets, p.name ≠ nm)
    (hlen : bank.presets.length ≤ 4294967295) :
    ysfx_delete_preset_from_bank bank nm = bank := by
  simp only [ysfx_delete_preset_from_bank, ysfx_preset_exists]
  rw [preset_exists_loop_not_mem _ _ _ _ habs, delete_copy_loop_spec,
    if_neg (by omega), List.eraseIdx_of_length_le (by omega)]

/-- Witness for `delete_absent_preset_is_deep_copy` at a concrete
bank. -/
theorem delete_absent_preset_is_deep_copy_witness :
    ysfx_delete_preset_from_bank
        { name := "bank",
          presets := [{ name := "a", blob_name := "a",
                        state := { sliders := [], data := [] } }] } "b"
      = { name := "bank",
          presets := [{ name := "a", blob_name := "a",
                        state := { sliders := [], data := [] } }] } :=
  delete_absent_preset_is_deep_copy _ _ (by decide) (by decide)

/-- C3: when `preset_name` already occurs, `ysfx_add_preset_to_bank`
keeps the preset count and overwrites exactly the matching entry (the
last occurrence) in place, leaving every other entry a copy; and
`ysfx_delete_preset_from_bank` removes exactly that entry, preserving
the relative order of the rest (`eraseIdx`).  Both operations build a
fresh bank value from copies, so the input bank is untouched — in this
purely functional embedding that is so by construction. -/
theorem bank_add_overwrite_delete_order (bank : ysfx_bank_t) (nm : String)
    (st : ysfx_state_t)
    (hex : ∃ p ∈ bank.presets, p.name = nm)
    (hlen : bank.presets.length ≤ 4294967295) :
    1 ≤ ysfx_preset_exists bank nm ∧
    ysfx_preset_exists bank nm - 1 < bank.presets.length ∧
    (∃ p, bank.presets[ysfx_preset_exists bank nm - 1]? = some p ∧
      p.name = nm) ∧
    (ysfx_add_preset_to_bank bank nm st).name = bank.name ∧
    (ysfx_add_preset_to_bank bank nm st).presets.length
      = bank.presets.length ∧
    (ysfx_add_preset_to_bank bank nm st).presets[ysfx_preset_exists bank nm - 1]?
      = some { name := nm, blob_name := escapeString nm, state := st } ∧
    (∀ i, i ≠ ysfx_preset_exists bank nm - 1 →
      (ysfx_add_preset_to_bank bank nm st).presets[i]? = bank.presets[i]?) ∧
    (ysfx_delete_preset_from_bank bank nm).name = bank.name ∧
    (ysfx_delete_preset_from_bank bank nm).presets
      = bank.presets.eraseIdx (ysfx_preset_exists bank nm - 1) ∧
    (ysfx_delete_preset_from_bank bank nm).presets.length
      = bank.presets.length - 1 := by
  obtain ⟨k, p, hget, hname, hloop, hlast⟩ :=
    preset_exists_loop_spec bank.presets nm 0 0 hex
  have hf : ysfx_preset_exists bank nm = k + 1 := by
    rw [ysfx_preset_exists, hloop]; omega
  have hk : k < bank.presets.length := by
    by_contra h
    rw [List.getElem?_eq_none (by omega)] at hget
    simp at hget
  have hmapdup : bank.presets.map ysfx_preset_dup = bank.presets := by
    have hid : ysfx_preset_dup = id := funext fun q => ysfx_preset_dup_eq q
    rw [hid, List.map_id]
  have hadd : ysfx_add_preset_to_bank bank nm st =
      { name := bank.name,
        presets := bank.presets.set k
          { name := nm, blob_name := escapeString nm, state := st } } := by
    simp only [ysfx_add_preset_to_bank]
    rw [hf, if_neg (by omega : ¬ (k + 1 = 0)), hmapdup]
    simp
  have hdel : ysfx_delete_preset_from_bank bank nm =
      { name := bank.name, presets := bank.presets.eraseIdx k } := by
    simp only [ysfx_delete_preset_from_bank, ysfx_preset_exists, hloop]
    rw [delete_copy_loop_spec, if_neg (by omega)]
    have hmod : (0 + k + 1 + 4294967295) % 4294967296 - 0 = k := by omega
    rw [hmod]
  refine ⟨by omega, by simpa [hf] using hk, ⟨p, by simpa [hf] using hget, hname⟩,
    ?_, ?_, ?_, ?_, ?_, ?_, ?_⟩
  · rw [hadd]
  · rw [hadd]; simp
  · rw [hadd, hf]
    simp only [Nat.add_sub_cancel]
    exact List.getElem?_set_self hk
  · intro i hi
    rw [hf] at hi
    rw [hadd]
    exact List.getElem?_set_ne (by omega)
  · rw [hdel]
  · rw [hdel, hf]
    simp only [Nat.add_sub_cancel]
  · rw [hdel]
    simp only [List.length_eraseIdx, if_pos hk]

/-- Witness for `bank_add_overwrite_delete_order` at a concrete
two-preset bank. -/
theorem bank_add_overwrite_delete_order_witness :
    1 ≤ ysfx_preset_exists
        { name := "bank",
          presets := [{ name := "a", blob_name := "a",
                        state := { sliders := [], data := [] } },
                      { name := "b", blob_name := "b",
                        state := { sliders := [], data := [] } }] } "a" ∧
    ysfx_preset_exists
        { name := "bank",
          presets := [{ name := "a", blob_name := "a",
                        state := { sliders := [], data := [] } },
                      { name := "b", blob_name := "b",
                        state := { sliders := [], data := [] } }] } "a" - 1 < 2 := by
  have h := bank_add_overwrite_delete_order
    { name := "bank",
      presets := [{ name := "a", blob_name := "a",
                    state := { sliders := [], data := [] } },
                  { name := "b", blob_name := "b",
                    state := { sliders := [], data := [] } }] } "a"
    { sliders := [], data := [] }
    ⟨{ name := "a", blob_name := "a", state := { sliders := [], data := [] } },
      by simp, rfl⟩ (by simp)
  exact ⟨h.1, h.2.1⟩

/-- The `@init` compile loop fails exactly when some present `@init`
section has non-empty text the VM rejects. -/
theorem compile_init_sections_eq_none_iff (oracle : nseel_vm_oracle)
    (secs : List (Option ysfx_section_t)) :
    compile_init_sections oracle secs = none ↔
      ∃ sec, some sec ∈ secs ∧ sec.text ≠ "" ∧
        oracle.compile_ok sec.text = false := by
  induction secs with
  | nil => simp [compile_init_sections]
  | cons osec rest ih =>
    cases osec with
    | none =>
      simp only [compile_init_sections, Option.map_eq_none', ih]
      constructor
      · rintro ⟨sec, hm, ht, ho⟩
        exact ⟨sec, List.mem_cons_of_mem _ hm, ht, ho⟩
      · rintro ⟨sec, hm, ht, ho⟩
        rcases List.mem_cons.mp hm with h | h
        · exact absurd h (by simp)
        · exact ⟨sec, h, ht, ho⟩
    | some sec =>
      by_cases he : sec.text = ""
      · have hcs : compile_section oracle sec = some none := by
          simp [compile_section, he]
        simp only [compile_init_sections, hcs, Option.map_eq_none', ih]
        constructor
        · rintro ⟨sec2, hm, ht, ho⟩
          exact ⟨sec2, List.mem_cons_of_mem _ hm, ht, ho⟩
        · rintro ⟨sec2, hm, ht, ho⟩
          rcases List.mem_cons.mp hm with h | h
          · rw [Option.some_inj.mp h] at ht; exact absurd he ht
          · exact ⟨sec2, h, ht, ho⟩
      · by_cases ho : oracle.compile_ok sec.text
        · have hcs : compile_section oracle sec = some (some ()) := by
            simp [compile_section, he, ho]
          simp only [compile_init_sections, hcs, Option.map_eq_none', ih]
          constructor
          · rintro ⟨sec2, hm, ht, ho2⟩
            exact ⟨sec2, List.mem_cons_of_mem _ hm, ht, ho2⟩
          · rintro ⟨sec2, hm, ht, ho2⟩
            rcases List.mem_cons.mp hm with h | h
            · rw [Option.some_inj.mp h] at ho2
              rw [ho] at ho2; cases ho2
            · exact ⟨sec2, h, ht, ho2⟩
        · have hcs : compile_section oracle sec = none := by
            simp [compile_section, he, ho]
          simp only [compile_init_sections, hcs]
          constructor
          · intro _
            exact ⟨sec, List.mem_cons_self _ _, he,
              Bool.not_eq_true _ ▸ (by simpa using ho)⟩
          · intro _; trivial

/-- A single optional section fails exactly when it is present with
non-empty text the VM rejects. -/
theorem compile_optional_section_eq_none_iff (oracle : nseel_vm_oracle)
    (osec : Option ysfx_section_t) :
    compile_optional_section oracle osec = none ↔
      ∃ sec, osec = some sec ∧ sec.text ≠ "" ∧
        oracle.compile_ok sec.text = false := by
  cases osec with
  | none => simp [compile_optional_section]
  | some sec =>
    simp only [compile_optional_section, compile_section]
    split_ifs with he ho <;> simp_all

/-- The whole compile attempt fails exactly when one of its six stages
fails. -/
theorem ysfx_compile_attempt_eq_none_iff (oracle : nseel_vm_oracle)
    (secs : List (Option ysfx_section_t))
    (s1 s2 s3 s4 s5 : Option ysfx_section_t) :
    ysfx_compile_attempt oracle secs s1 s2 s3 s4 s5 = none ↔
      (compile_init_sections oracle secs = none ∨
       compile_optional_section oracle s1 = none ∨
       compile_optional_section oracle s2 = none ∨
       compile_optional_section oracle s3 = none ∨
       compile_optional_section oracle s4 = none ∨
       compile_optional_section oracle s5 = none) := by
  unfold ysfx_compile_attempt
  cases compile_init_sections oracle secs <;>
    cases compile_optional_section oracle s1 <;>
      cases compile_optional_section oracle s2 <;>
        cases compile_optional_section oracle s3 <;>
          cases compile_optional_section oracle s4 <;>
            cases compile_optional_section oracle s5 <;>
              simp

/-- C5: if any single section fails to compile, `ysfx_compile` returns
false and the effect reverts to the loaded-but-uncompiled state: every
code handle is cleared (`ysfx_code_empty`), `ysfx_is_compiled` is false,
and the loaded source is untouched (`ysfx_is_loaded` is preserved).
Conversely, on a loaded effect the call fails exactly when some
attempted section text is rejected by the VM. -/
theorem compile_failure_rollback (oracle : nseel_vm_oracle) (fx : ysfx_t)
    (opts : ysfx_compile_opts) :
    ((ysfx_compile oracle fx opts).1 = false →
      (ysfx_compile oracle fx opts).2.code = ysfx_code_empty ∧
      ysfx_is_compiled (ysfx_compile oracle fx opts).2 = false ∧
      (ysfx_compile oracle fx opts).2.source = fx.source ∧
      ysfx_is_loaded (ysfx_compile oracle fx opts).2 = ysfx_is_loaded fx) ∧
    (ysfx_is_loaded fx = true →
      ((ysfx_compile oracle fx opts).1 = false ↔
        ∃ t ∈ compile_attempted_texts fx opts, oracle.compile_ok t = false)) := by
  cases hmain : fx.source.main with
  | none =>
    have hred : ysfx_compile oracle fx opts = (false, ysfx_unload_code fx) := by
      unfold ysfx_compile
      have h' : (ysfx_unload_code fx).source.main = none := hmain
      simp only [h']
    rw [hred]
    refine ⟨fun _ => ⟨rfl, rfl, rfl, rfl⟩, fun hl => ?_⟩
    rw [ysfx_is_loaded, hmain] at hl
    simp at hl
  | some mainu =>
    have h' : (ysfx_unload_code fx).source.main = some mainu := hmain
    set secs := fx.source.imports.map (fun u => u.toplevel.init)
      ++ [mainu.toplevel.init] with hsecs
    set s1 := ysfx_search_section fx (fun tl => tl.slider) with hs1
    set s2 := ysfx_search_section fx (fun tl => tl.block) with hs2
    set s3 := ysfx_search_section fx (fun tl => tl.sample) with hs3
    set s4 := (if opts.no_gfx then none
      else ysfx_search_section fx (fun tl => tl.gfx)) with hs4
    set s5 := (if opts.no_serialize then none
      else ysfx_search_section fx (fun tl => tl.serialize)) with hs5
    have hred : ysfx_compile oracle fx opts =
        match ysfx_compile_attempt oracle secs s1 s2 s3 s4 s5 with
        | none => (false, ysfx_unload_code fx)
        | some code =>
          (true,
           { ysfx_unload_code fx with
             code := code, has_serialize := s5.isSome,
             is_freshly_compiled := true, must_compute_init := true }) := by
      unfold ysfx_compile
      simp only [h']
      rfl
    have hatt_texts : compile_attempted_texts fx opts =
        (((secs ++ [s1, s2, s3, s4, s5]).filterMap id).map
          (fun sec => sec.text)).filter (fun t => t ≠ "") := by
      simp only [compile_attempted_texts, hmain]
    have hmem : (∃ t ∈ compile_attempted_texts fx opts,
        oracle.compile_ok t = false) ↔
        (compile_init_sections oracle secs = none ∨
         compile_optional_section oracle s1 = none ∨
         compile_optional_section oracle s2 = none ∨
         compile_optional_section oracle s3 = none ∨
         compile_optional_section oracle s4 = none ∨
         compile_optional_section oracle s5 = none) := by
      constructor
      · rintro ⟨t, htmem, hbad⟩
        rw [hatt_texts, List.mem_filter] at htmem
        obtain ⟨htm, hne⟩ := htmem
        rw [List.mem_map] at htm
        obtain ⟨sec, hsecL, hst⟩ := htm
        rw [List.mem_filterMap] at hsecL
        obtain ⟨o, hoL, ho⟩ := hsecL
        rw [id_eq] at ho; subst ho; subst hst
        have hne2 : sec.text ≠ "" := by simpa using hne
        rw [List.mem_append] at hoL
        rcases hoL with h | h
        · exact Or.inl ((compile_init_sections_eq_none_iff _ _).mpr
            ⟨sec, h, hne2, hbad⟩)
        · simp only [List.mem_cons, List.not_mem_nil, or_false] at h
          rcases h with h | h | h | h | h
          · exact Or.inr (Or.inl ((compile_optional_section_eq_none_iff _ _).mpr
              ⟨sec, h.symm, hne2, hbad⟩))
          · exact Or.inr (Or.inr (Or.inl
              ((compile_optional_section_eq_none_iff _ _).mpr
                ⟨sec, h.symm, hne2, hbad⟩)))
          · exact Or.inr (Or.inr (Or.inr (Or.inl
              ((compile_optional_section_eq_none_iff _ _).mpr
                ⟨sec, h.symm, hne2, hbad⟩))))
          · exact Or.inr (Or.inr (Or.inr (Or.inr (Or.inl
              ((compile_optional_section_eq_none_iff _ _).mpr
                ⟨sec, h.symm, hne2, hbad⟩)))))
          · exact Or.inr (Or.inr (Or.inr (Or.inr (Or.inr
              ((compile_optional_section_eq_none_iff _ _).mpr
                ⟨sec, h.symm, hne2, hbad⟩)))))
      · have build : ∀ sec : ysfx_section_t,
            some sec ∈ secs ++ [s1, s2, s3, s4, s5] → sec.text ≠ "" →
            oracle.compile_ok sec.text = false →
            ∃ t ∈ compile_attempted_texts fx opts,
              oracle.compile_ok t = false := by
          intro sec hm hne hbad
          refine ⟨sec.text, ?_, hbad⟩
          rw [hatt_texts, List.mem_filter]
          exact ⟨List.mem_map_of_mem _ (List.mem_filterMap.mpr ⟨some sec, hm, rfl⟩),
            by simpa using hne⟩
        rintro (h | h | h | h | h | h)
        · obtain ⟨sec, hm, hne, hbad⟩ := (compile_init_sections_eq_none_iff _ _).mp h
          exact build sec (List.mem_append_left _ hm) hne hbad
        · obtain ⟨sec, hm, hne, hbad⟩ :=
            (compile_optional_section_eq_none_iff _ _).mp h
          exact build sec (List.mem_append_right _ (by rw [← hm]; simp)) hne hbad
        · obtain ⟨sec, hm, hne, hbad⟩ :=
            (compile_optional_section_eq_none_iff _ _).mp h
          exact build sec (List.mem_append_right _ (by rw [← hm]; simp)) hne hbad
        · obtain ⟨sec, hm, hne, hbad⟩ :=
            (compile_optional_section_eq_none_iff _ _).mp h
          exact build sec (List.mem_append_right _ (by rw [← hm]; simp)) hne hbad
        · obtain ⟨sec, hm, hne, hbad⟩ :=
            (compile_optional_section_eq_none_iff _ _).mp h
          exact build sec (List.mem_append_right _ (by rw [← hm]; simp)) hne hbad
        · obtain ⟨sec, hm, hne, hbad⟩ :=
            (compile_optional_section_eq_none_iff _ _).mp h
          exact build sec (List.mem_append_right _ (by rw [← hm]; simp)) hne hbad
    rw [hred]
    cases hatt : ysfx_compile_attempt oracle secs s1 s2 s3 s4 s5 with
    | none =>
      refine ⟨fun _ => ⟨rfl, rfl, rfl, rfl⟩, fun _ => ?_⟩
      simp only []
      rw [iff_true_intro ((hmem.mpr
        ((ysfx_compile_attempt_eq_none_iff _ _ _ _ _ _ _).mp hatt)))]
    | some code =>
      refine ⟨fun hfalse => absurd hfalse (by simp), fun _ => ?_⟩
      constructor
      · intro hfalse; exact absurd hfalse (by simp)
      · intro hbad
        have hnone : ysfx_compile_attempt oracle secs s1 s2 s3 s4 s5 = none :=
          (ysfx_compile_attempt_eq_none_iff _ _ _ _ _ _ _).mpr (hmem.mp hbad)
        rw [hatt] at hnone
        cases hnone

/-- Witness for `compile_failure_rollback`: a loaded effect whose
`@init` text the VM rejects compiles to false and rolls back. -/
theorem compile_failure_rollback_witness :
    (ysfx_compile
        { compile_ok := fun t => t != "bad",
          process_compiled := fun _ _ _ _ _ => [] }
        { source :=
            { main := some { toplevel :=
                { header := { text := "", line_offset := 0 },
                  init := some { text := "bad", line_offset := 0 },
                  slider := none, block := none, sample := none, gfx := none,
                  serialize := none, gfx_w := 0, gfx_h := 0 } },
              imports := [] },
          code := ysfx_code_empty, is_freshly_compiled := false,
          must_compute_init := false, must_compute_slider := false,
          has_serialize := false }
        { no_gfx := false, no_serialize := false }).1 = false ∧
    (ysfx_compile
        { compile_ok := fun t => t != "bad",
          process_compiled := fun _ _ _ _ _ => [] }
        { source :=
            { main := some { toplevel :=
                { header := { text := "", line_offset := 0 },
                  init := some { text := "bad", line_offset := 0 },
                  slider := none, block := none, sample := none, gfx := none,
                  serialize := none, gfx_w := 0, gfx_h := 0 } },
              imports := [] },
          code := ysfx_code_empty, is_freshly_compiled := false,
          must_compute_init := false, must_compute_slider := false,
          has_serialize := false }
        { no_gfx := false, no_serialize := false }).2.code = ysfx_code_empty :=
  have h := compile_failure_rollback
    { compile_ok := fun t => t != "bad",
      process_compiled := fun _ _ _ _ _ => [] }
    { source :=
        { main := some { toplevel :=
            { header := { text := "", line_offset := 0 },
              init := some { text := "bad", line_offset := 0 },
              slider := none, block := none, sample := none, gfx := none,
              serialize := none, gfx_w := 0, gfx_h := 0 } },
          imports := [] },
      code := ysfx_code_empty, is_freshly_compiled := false,
      must_compute_init := false, must_compute_slider := false,
      has_serialize := false }
    { no_gfx := false, no_serialize := false }
  have hfalse : (ysfx_compile
      { compile_ok := fun t => t != "bad",
        process_compiled := fun _ _ _ _ _ => [] }
      { source :=
          { main := some { toplevel :=
              { header := { text := "", line_offset := 0 },
                init := some { text := "bad", line_offset := 0 },
                slider := none, block := none, sample := none, gfx := none,
                serialize := none, gfx_w := 0, gfx_h := 0 } },
            imports := [] },
        code := ysfx_code_empty, is_freshly_compiled := false,
        must_compute_init := false, must_compute_slider := false,
        has_serialize := false }
      { no_gfx := false, no_serialize := false }).1 = false := by decide
  ⟨hfalse, (h.1 hfalse).1⟩

/-- One step of pass 1 on a non-empty line list: a non-config line (or an
invalid config line) recurses with the same seen-identifier list; a valid
config line whose lowercased identifier was already seen errors with the
duplicate message, and otherwise recurses with the identifier pushed. -/
theorem pass1_cons_cases (line : String) (rest : List String) (n : ℕ)
    (hdr : ysfx_header_t) (ids : List String) :
    (config_id_of_line line = none ∧
      ∃ n2 hdr2, ysfx_parse_header_pass1 (line :: rest) n hdr ids =
        ysfx_parse_header_pass1 rest n2 hdr2 ids) ∨
    (∃ ident, config_id_of_line line = some ident ∧
      ((ident ∈ ids ∧
          ysfx_parse_header_pass1 (line :: rest) n hdr ids =
            .error { line := n,
                     message := "Duplicate config variable: " ++
                       (ysfx_parse_config_line (str_drop line 7).data).identifier }) ∨
       (ident ∉ ids ∧
          ysfx_parse_header_pass1 (line :: rest) n hdr ids =
            ysfx_parse_header_pass1 rest (n + 1)
              { hdr with config_items := hdr.config_items ++
                  [ysfx_parse_config_line (str_drop line 7).data] }
              (ident :: ids)))) := by
  by_cases b1 : str_prefix "desc:" line = true
  · exact .inl ⟨by simp [config_id_of_line, b1], n + 1, _,
      by simp [ysfx_parse_header_pass1, b1] <;> try rfl⟩
  by_cases b2 : str_prefix "author:" line = true
  · exact .inl ⟨by simp [config_id_of_line, b1, b2], n + 1, _,
      by simp [ysfx_parse_header_pass1, b1, b2] <;> try rfl⟩
  by_cases b3 : str_prefix "tags:" line = true
  · exact .inl ⟨by simp [config_id_of_line, b1, b2, b3], n + 1, _,
      by simp [ysfx_parse_header_pass1, b1, b2, b3] <;> try rfl⟩
  by_cases b4 : str_prefix "in_pin:" line = true
  · exact .inl ⟨by simp [config_id_of_line, b1, b2, b3, b4], n + 1, _,
      by simp [ysfx_parse_header_pass1, b1, b2, b3, b4] <;> try rfl⟩
  by_cases b5 : str_prefix "out_pin:" line = true
  · exact .inl ⟨by simp [config_id_of_line, b1, b2, b3, b4, b5], n + 1, _,
      by simp [ysfx_parse_header_pass1, b1, b2, b3, b4, b5] <;> try rfl⟩
  by_cases b6 : str_prefix "config:" line = true
  · by_cases bv : ysfx_config_item_is_valid
        (ysfx_parse_config_line (str_drop line 7).data) = true
    · refine .inr ⟨String.mk
        ((ysfx_parse_config_line (str_drop line 7).data).identifier.data.map
          ascii_tolower),
        by simp [config_id_of_line, b1, b2, b3, b4, b5, b6, bv], ?_⟩
      by_cases bm : String.mk
          ((ysfx_parse_config_line (str_drop line 7).data).identifier.data.map
            ascii_tolower) ∈ ids
      · exact .inl ⟨bm,
          by simp [ysfx_parse_header_pass1, b1, b2, b3, b4, b5, b6, bv, bm] <;> try rfl⟩
      · exact .inr ⟨bm,
          by simp [ysfx_parse_header_pass1, b1, b2, b3, b4, b5, b6, bv, bm] <;> try rfl⟩
    · exact .inl ⟨by simp [config_id_of_line, b1, b2, b3, b4, b5, b6, bv],
        n + 1, hdr,
        by simp [ysfx_parse_header_pass1, b1, b2, b3, b4, b5, b6, bv] <;> try rfl⟩
  have hid : config_id_of_line line = none := by
    simp [config_id_of_line, b6]
  by_cases b7 : str_prefix "options:" line = true
  · exact .inl ⟨hid, n + 1, _,
      by simp [ysfx_parse_header_pass1, b1, b2, b3, b4, b5, b6, b7] <;> try rfl⟩
  by_cases b8 : ( str_prefix "import" line = true ∧
      ((str_drop line 6).data.head?.any ascii_isspace) = true)
  · exact .inl ⟨hid, n + 1, _,
      by simp [ysfx_parse_header_pass1, b1, b2, b3, b4, b5, b6, b7, b8] <;> try rfl⟩
  cases hs : ysfx_parse_slider line with
  | some slider =>
    by_cases bid : ysfx_max_sliders ≤ slider.id
    · exact .inl ⟨hid, n, hdr,
        by simp [ysfx_parse_header_pass1, b1, b2, b3, b4, b5, b6, b7, b8, hs,
          bid] <;> try rfl⟩
    · exact .inl ⟨hid, n + 1, _,
        by simp [ysfx_parse_header_pass1, b1, b2, b3, b4, b5, b6, b7, b8, hs,
          bid] <;> try rfl⟩
  | none =>
    cases hf : ysfx_parse_filename line with
    | some fn =>
      by_cases bfi : fn.index ≠ hdr.filenames.length
      · exact .inl ⟨hid, n, hdr,
          by simp [ysfx_parse_header_pass1, b1, b2, b3, b4, b5, b6, b7, b8, hs,
            hf, bfi] <;> try rfl⟩
      · exact .inl ⟨hid, n + 1, _,
          by simp [ysfx_parse_header_pass1, b1, b2, b3, b4, b5, b6, b7, b8, hs,
            hf, bfi] <;> try rfl⟩
    | none =>
      exact .inl ⟨hid, n + 1, hdr,
        by simp [ysfx_parse_header_pass1, b1, b2, b3, b4, b5, b6, b7, b8, hs,
          hf] <;> try rfl⟩

/-- Pass 1 errors always carry a duplicate-config message. -/
theorem pass1_error_message :
    ∀ (lines : List String) (n : ℕ) (hdr : ysfx_header_t) (ids : List String)
      (e : ysfx_parse_error),
      ysfx_parse_header_pass1 lines n hdr ids = .error e →
      ∃ ident, e.message = "Duplicate config variable: " ++ ident := by
  intro lines
  induction lines with
  | nil =>
    intro n hdr ids e h
    simp [ysfx_parse_header_pass1] at h
  | cons line rest ih =>
    intro n hdr ids e h
    rcases pass1_cons_cases line rest n hdr ids with
      ⟨-, n2, hdr2, hstep⟩ | ⟨ident, -, ⟨-, herr⟩ | ⟨-, hstep⟩⟩
    · rw [hstep] at h
      exact ih _ _ _ _ h
    · rw [herr] at h
      injection h with h1
      exact ⟨_, by rw [← h1]⟩
    · rw [hstep] at h
      exact ih _ _ _ _ h

/-- Pass 1 succeeds exactly when the valid config identifiers of the line
list (lowercased) are pairwise distinct and avoid the seen list. -/
theorem pass1_ok_iff :
    ∀ (lines : List String) (n : ℕ) (hdr : ysfx_header_t) (ids : List String),
      (∃ res, ysfx_parse_header_pass1 lines n hdr ids = .ok res) ↔
        ((lines.filterMap config_id_of_line).Nodup ∧
          ∀ s ∈ lines.filterMap config_id_of_line, s ∉ ids) := by
  intro lines
  induction lines with
  | nil =>
    intro n hdr ids
    simp [ysfx_parse_header_pass1]
  | cons line rest ih =>
    intro n hdr ids
    rcases pass1_cons_cases line rest n hdr ids with
      ⟨hid, n2, hdr2, hstep⟩ | ⟨ident, hid, ⟨hmem, herr⟩ | ⟨hmem, hstep⟩⟩
    · have hfm : List.filterMap config_id_of_line (line :: rest) =
          List.filterMap config_id_of_line rest := by
        simp [List.filterMap_cons, hid]
      rw [hfm, hstep, ih]
    · have hfm : List.filterMap config_id_of_line (line :: rest) =
          ident :: List.filterMap config_id_of_line rest := by
        simp [List.filterMap_cons, hid]
      rw [hfm]
      constructor
      · rintro ⟨res, hres⟩
        rw [herr] at hres
        cases hres
      · rintro ⟨-, hall⟩
        exact absurd hmem (hall ident (List.mem_cons_self _ _))
    · have hfm : List.filterMap config_id_of_line (line :: rest) =
          ident :: List.filterMap config_id_of_line rest := by
        simp [List.filterMap_cons, hid]
      rw [hfm, hstep, ih]
      constructor
      · rintro ⟨hnd, hall⟩
        refine ⟨List.nodup_cons.mpr
          ⟨fun hc => (hall ident hc) (List.mem_cons_self _ _), hnd⟩, ?_⟩
        intro s hs
        rcases List.mem_cons.mp hs with rfl | hs2
        · exact hmem
        · exact fun hin => (hall s hs2) (List.mem_cons_of_mem _ hin)
      · rintro ⟨hnd, hall⟩
        rcases List.nodup_cons.mp hnd with ⟨hni, hnd2⟩
        refine ⟨hnd2, ?_⟩
        intro s hs hin
        rcases List.mem_cons.mp hin with rfl | hin2
        · exact hni hs
        · exact (hall s (List.mem_cons_of_mem _ hs)) hin2

/-- C8: `ysfx_parse_header` succeeds exactly when the lowercased
identifiers of the valid `config:` lines are pairwise distinct (so any
case-insensitive duplicate is a hard parse error); every parse error
message is a duplicate-config message; concretely, two `config:` lines
declaring `ab` and `AB` fail at the second line with
`Duplicate config variable: AB`. -/
theorem parse_header_duplicate_config (sec : ysfx_section_t) :
    ((∃ hd, ysfx_parse_header sec = .ok hd) ↔
      ((text_reader_lines sec.text).filterMap config_id_of_line).Nodup) ∧
    (∀ e, ysfx_parse_header sec = .error e →
      ∃ ident, e.message = "Duplicate config variable: " ++ ident) ∧
    except_error? (ysfx_parse_header
        { text := "config:ab cd 1 1=foo 2=bar\nconfig:AB cd 2 3=x 4=y\n",
          line_offset := 10 })
      = some { line := 11, message := "Duplicate config variable: AB" } := by
  refine ⟨?_, ?_, by decide⟩
  · have hiff := pass1_ok_iff (text_reader_lines sec.text) sec.line_offset
      ysfx_header_zero []
    simp only [List.not_mem_nil, not_false_iff, implies_true, and_true] at hiff
    unfold ysfx_parse_header
    cases hp : ysfx_parse_header_pass1 (text_reader_lines sec.text)
        sec.line_offset ysfx_header_zero [] with
    | error e =>
      simp only [hp]
      constructor
      · rintro ⟨hd, heq⟩
        cases heq
      · intro hnd
        obtain ⟨res, hres⟩ := hiff.mpr hnd
        rw [hp] at hres
        cases hres
    | ok res =>
      simp only [hp]
      constructor
      · intro _
        exact hiff.mp ⟨res, hp⟩
      · intro _
        exact ⟨_, rfl⟩
  · intro e he
    simp only [ysfx_parse_header] at he
    cases hp : ysfx_parse_header_pass1 (text_reader_lines sec.text)
        sec.line_offset ysfx_header_zero [] with
    | error e2 =>
      rw [hp] at he
      injection he with he2
      exact he2 ▸ pass1_error_message _ _ _ _ _ hp
    | ok res =>
      rw [hp] at he
      cases he

/-- Witness for C8: on the concrete two-line header the error produced
carries the duplicate-config message. -/
theorem parse_header_duplicate_config_witness :
    ∃ ident,
      ({ line := 11, message := "Duplicate config variable: AB" } :
          ysfx_parse_error).message = "Duplicate config variable: " ++ ident := by
  have hmain := parse_header_duplicate_config
    { text := "config:ab cd 1 1=foo 2=bar\nconfig:AB cd 2 3=x 4=y\n",
      line_offset := 10 }
  have hx := hmain.2.2
  refine hmain.2.1 { line := 11, message := "Duplicate config variable: AB" } ?_
  cases hq : ysfx_parse_header
      { text := "config:ab cd 1 1=foo 2=bar\nconfig:AB cd 2 3=x 4=y\n",
        line_offset := 10 } with
  | error a =>
    rw [hq] at hx
    simp only [except_error?, Option.some.injEq] at hx
    rw [hx]
  | ok r =>
    rw [hq] at hx
    simp [except_error?] at hx

/-- The linear backward map undoes the linear forward map whenever the
range passes the non-degeneracy guard. -/
theorem linear_roundtrip (c : ysfx_slider_curve_t) (x : ℝ)
    (h : 1 / 1000000000000 ≤ |c.max - c.min|) :
    ysfx_slider_scale_to_normalized_linear
      (ysfx_slider_scale_from_normalized_linear x c) c = x := by
  have hd : c.max - c.min ≠ 0 := by
    intro h0
    rw [h0, abs_zero] at h
    norm_num at h
  simp only [ysfx_slider_scale_to_normalized_linear,
    ysfx_slider_scale_from_normalized_linear]
  rw [if_neg (not_lt.mpr h)]
  field_simp

/-- Signed power followed by signed root of the same exponent is the
identity (the helper behind the sqr branch). -/
theorem sgn_abs_rpow_roundtrip (t k : ℝ) (hk : k ≠ 0) :
    _sgn (_sgn t * |t| ^ k) * |_sgn t * |t| ^ k| ^ (1 / k) = t := by
  have hroot : (|t| ^ k) ^ (1 / k) = |t| := by
    rw [← Real.rpow_mul (abs_nonneg t), mul_one_div_cancel hk, Real.rpow_one]
  rcases le_or_lt 0 t with ht | ht
  · have hsg : _sgn t = 1 := if_pos ht
    have hnn : (0:ℝ) ≤ |t| ^ k := Real.rpow_nonneg (abs_nonneg t) k
    rw [hsg, one_mul, _sgn, if_pos hnn, one_mul, abs_of_nonneg hnn, hroot,
      abs_of_nonneg ht]
  · have hsg : _sgn t = -1 := if_neg (not_le.mpr ht)
    have habs : |t| = -t := abs_of_neg ht
    have hpos : (0:ℝ) < |t| ^ k := by
      apply Real.rpow_pos_of_pos
      rw [habs]
      linarith
    have hneg : -1 * |t| ^ k < 0 := by linarith
    rw [hsg, _sgn, if_neg (not_le.mpr hneg), abs_of_neg hneg]
    have h2 : -(-1 * |t| ^ k) = |t| ^ k := by ring
    rw [h2, hroot, habs]
    ring

/-- C1 (amended): the round trip through the curve math is exact over the
reals on every branch whose parameters satisfy `curve_invertible`; the
degenerate parameters excluded there (counterexample:
`slider_curve_roundtrip_degenerate_cex`) break the round trip entirely. -/
theorem slider_curve_roundtrip_exact (c : ysfx_slider_curve_t) (x : ℝ)
    (h : curve_invertible c) :
    ysfx_ysfx_value_to_normalized (ysfx_normalized_to_ysfx_value x c) c = x := by
  obtain ⟨dv, mn, mx, inc, sh, md⟩ := c
  rcases sh with _ | _ | _ | sh
  · simp only [curve_invertible] at h
    simp only [ysfx_ysfx_value_to_normalized, ysfx_normalized_to_ysfx_value]
    exact linear_roundtrip _ x h
  · simp only [curve_invertible] at h
    simp only [ysfx_ysfx_value_to_normalized, ysfx_normalized_to_ysfx_value]
    by_cases hm0 : md = 0
    · subst hm0
      simp only [eq_self_iff_true, if_true] at h
      by_cases hsmall : mn ≤ 1 / 10000 ∨ mx ≤ 1 / 10000
      · simp only [ysfx_slider_scale_from_normalized_log,
          ysfx_slider_scale_to_normalized_log, eq_self_iff_true, if_true]
        rw [if_pos hsmall, if_pos hsmall]
        rw [if_pos hsmall] at h
        exact linear_roundtrip _ x h
      · simp only [ysfx_slider_scale_from_normalized_log,
          ysfx_slider_scale_to_normalized_log, eq_self_iff_true, if_true]
        rw [if_neg hsmall, if_neg hsmall]
        rw [if_neg hsmall] at h
        push_neg at hsmall
        obtain ⟨hmn, hmx⟩ := hsmall
        have hmnpos : (0:ℝ) < mn := lt_trans (by norm_num) hmn
        have hmxpos : (0:ℝ) < mx := lt_trans (by norm_num) hmx
        have hL : Real.log mx - Real.log mn ≠ 0 := by
          intro hl
        
          have hlog : Real.log mn = Real.log mx := by linarith
          have : mn = mx := by
            rw [← Real.exp_log hmnpos, ← Real.exp_log hmxpos, hlog]
          exact h this
        rw [Real.log_exp]
        field_simp
    · simp only [if_neg hm0] at h
      by_cases hdeg : |mx - mn| < 1 / 10000000
      · simp only [ysfx_slider_scale_from_normalized_log,
          ysfx_slider_scale_to_normalized_log]
        rw [if_neg hm0, if_neg hm0, if_pos hdeg, if_pos hdeg]
        rw [if_pos hdeg] at h
        exact linear_roundtrip _ x h
      · by_cases hmod : |md - mn| < 1 / 10000000
        · simp only [ysfx_slider_scale_from_normalized_log,
            ysfx_slider_scale_to_normalized_log]
          rw [if_neg hm0, if_neg hm0, if_neg hdeg, if_neg hdeg,
            if_pos hmod, if_pos hmod]
          have hge : 1 / 1000000000000 ≤ |mx - mn| := by
            push_neg at hdeg
            calc (1:ℝ) / 1000000000000 ≤ 1 / 10000000 := by norm_num
            _ ≤ |mx - mn| := hdeg
          exact linear_roundtrip _ x hge
        · simp only [if_neg hdeg, if_neg hmod] at h
          obtain ⟨hmm0, hmm1⟩ := h
          simp only [ysfx_slider_scale_from_normalized_log,
            ysfx_slider_scale_to_normalized_log]
          rw [if_neg hm0, if_neg hm0, if_neg hdeg, if_neg hdeg,
            if_neg hmod, if_neg hmod]
          set M := (md - mn) / (mx - mn) with hM
          set mm1 := ((M - 1) / M) * ((M - 1) / M) with hmm1def
          have hD : mx - mn ≠ 0 := by
            intro h0
            rw [h0, abs_zero] at hdeg
            exact hdeg (by norm_num)
          have hmm1sub : mm1 - 1 ≠ 0 := sub_ne_zero.mpr hmm1
          have hmmpos : 0 < mm1 :=
            lt_of_le_of_ne (mul_self_nonneg _) (Ne.symm hmm0)
          have habs : |mm1| = mm1 := abs_of_pos hmmpos
          have hrp : 0 < mm1 ^ x := Real.rpow_pos_of_pos hmmpos x
          rw [habs]
          have hinner :
              ((mx - mn) / (mm1 - 1) * (mm1 ^ x - 1) + mn - mn) *
                  ((mm1 - 1) / (mx - mn)) + 1 = mm1 ^ x := by
            field_simp
            ring
          rw [hinner, abs_of_pos hrp, Real.log_rpow hmmpos]
          have hlog : Real.log mm1 ≠ 0 := by
            intro hl
            rcases Real.log_eq_zero.mp hl with h0 | h1 | hneg
            · exact hmm0 h0
            · exact hmm1 h1
            · rw [hneg] at hmmpos
              norm_num at hmmpos
          field_simp
  · simp only [curve_invertible] at h
    obtain ⟨hmod, hne⟩ := h
    simp only [ysfx_ysfx_value_to_normalized, ysfx_normalized_to_ysfx_value,
      ysfx_slider_scale_from_normalized_sqr, ysfx_slider_scale_to_normalized_sqr]
    rw [sgn_abs_rpow_roundtrip _ _ hmod]
    have hdiff : _sgn mx * |mx| ^ (1 / md) - _sgn mn * |mn| ^ (1 / md) ≠ 0 :=
      sub_ne_zero.mpr hne
    field_simp
  · simp only [curve_invertible] at h
    simp only [ysfx_ysfx_value_to_normalized, ysfx_normalized_to_ysfx_value]
    exact linear_roundtrip _ x h

/-- C1 counterexample: with the degenerate linear curve min = max = 5 the
round trip of x = 0 returns 5 — an absolute error of 5, outside any
floating-point tolerance.  (`ysfx_slider_scale_to_normalized_linear`
returns `curve.min`, which is not a normalized value, whenever
`|max - min| < 1e-12`.) -/
theorem slider_curve_roundtrip_degenerate_cex :
    |ysfx_ysfx_value_to_normalized
        (ysfx_normalized_to_ysfx_value 0
          { defv := 0, min := 5, max := 5, inc := 0, shape := 0, modifier := 0 })
        { defv := 0, min := 5, max := 5, inc := 0, shape := 0, modifier := 0 }
      - 0| = 5 := by
  simp only [ysfx_ysfx_value_to_normalized, ysfx_normalized_to_ysfx_value,
    ysfx_slider_scale_from_normalized_linear,
    ysfx_slider_scale_to_normalized_linear]
  norm_num

/-- Witness for C1: the unit linear curve is invertible and the round
trip fixes x = 1/2. -/
theorem slider_curve_roundtrip_exact_witness :
    curve_invertible
        { defv := 0, min := 0, max := 1, inc := 0, shape := 0, modifier := 0 } ∧
    ysfx_ysfx_value_to_normalized
        (ysfx_normalized_to_ysfx_value (1 / 2)
          { defv := 0, min := 0, max := 1, inc := 0, shape := 0, modifier := 0 })
        { defv := 0, min := 0, max := 1, inc := 0, shape := 0, modifier := 0 }
      = 1 / 2 :=
  ⟨by norm_num [curve_invertible],
   slider_curve_roundtrip_exact _ (1 / 2) (by norm_num [curve_invertible])⟩

/-- C2 counterexample: the loader accepts `<REAPER_PRESET_LIBRARY Foo`
(no trailing newline, no closing `>` -- the preset loop simply runs out
of tokens), but saving the loaded bank appends the canonical terminators,
so save∘load is not the identity on accepted inputs. -/
theorem rpl_save_load_not_identity_cex :
    (ysfx_load_bank_from_rpl_text "<REAPER_PRESET_LIBRARY Foo").isSome = true ∧
    (ysfx_load_bank_from_rpl_text "<REAPER_PRESET_LIBRARY Foo").map
        ysfx_save_bank_to_rpl_text ≠ some "<REAPER_PRESET_LIBRARY Foo" := by
  have hdata : "<REAPER_PRESET_LIBRARY Foo".data =
      ['<','R','E','A','P','E','R','_','P','R','E','S','E','T','_','L','I','B',
       'R','A','R','Y',' ','F','o','o'] := rfl
  have hload : ysfx_load_bank_from_rpl_text "<REAPER_PRESET_LIBRARY Foo" =
      some { name := "Foo", presets := [] } := by
    simp [ysfx_load_bank_from_rpl_text, hdata, lineparse_tokens, cQuote, cApos,
      cBacktick, ysfx_load_bank_loop, Char.ofNat]
  have hsave : ysfx_save_bank_to_rpl_text { name := "Foo", presets := [] } =
      "<REAPER_PRESET_LIBRARY Foo\n>\n" := by
    simp [ysfx_save_bank_to_rpl_text, escapeString, hasFunkyCharacters,
      hasFunkyCharacters_loop, cQuote, cApos, cBacktick, String.join]
  rw [hload]
  exact ⟨rfl, by simp [hsave]⟩

/-- `takeWhile` walks through a block of characters that all satisfy the
predicate. -/
theorem takeWhile_all_append (p : Char → Bool) (l r : List Char)
    (h : ∀ c ∈ l, p c = true) :
    (l ++ r).takeWhile p = l ++ r.takeWhile p := by
  induction l with
  | nil => simp
  | cons c cs ih =>
    simp only [List.cons_append, List.takeWhile_cons,
      h c (List.mem_cons_self _ _)]
    rw [ih (fun e he => h e (List.mem_cons_of_mem _ he))]
    simp

/-- `dropWhile` skips a block of characters that all satisfy the
predicate. -/
theorem dropWhile_all_append (p : Char → Bool) (l r : List Char)
    (h : ∀ c ∈ l, p c = true) :
    (l ++ r).dropWhile p = r.dropWhile p := by
  induction l with
  | nil => simp
  | cons c cs ih =>
    simp only [List.cons_append, List.dropWhile_cons,
      h c (List.mem_cons_self _ _)]
    exact ih (fun e he => h e (List.mem_cons_of_mem _ he))

/-- The tokenizer drops a leading separator. -/
theorem lineparse_tokens_cons_sep (c : Char) (cs : List Char)
    (h : c = ' ' ∨ c.toNat = 9) :
    lineparse_tokens (c :: cs) = lineparse_tokens cs := by
  rw [lineparse_tokens]
  rw [if_pos h]

/-- The tokenizer reads one plain token up to the next separator. -/
theorem lineparse_tokens_cons_plain (c : Char) (cs : List Char)
    (h : rpl_plain_char c = true) :
    lineparse_tokens (c :: cs) =
      String.mk (c :: cs.takeWhile (fun e => ¬(e = ' ' ∨ e.toNat = 9))) ::
        lineparse_tokens (cs.dropWhile (fun e => ¬(e = ' ' ∨ e.toNat = 9))) := by
  simp only [rpl_plain_char, Bool.not_eq_true', Bool.or_eq_false_iff,
    decide_eq_false_iff_not] at h
  rw [lineparse_tokens]
  rw [if_neg (by tauto), if_neg (by tauto)]

/-- A nonempty run of plain characters followed by a space tokenizes to
one token, and scanning resumes after the space. -/
theorem lineparse_token_space (t r : List Char) (ht : t ≠ [])
    (hplain : ∀ c ∈ t, rpl_plain_char c = true) :
    lineparse_tokens (t ++ ' ' :: r) = String.mk t :: lineparse_tokens r := by
  obtain ⟨c, cs, rfl⟩ : ∃ c cs, t = c :: cs := by
    cases t with
    | nil => exact absurd rfl ht
    | cons c cs => exact ⟨c, cs, rfl⟩
  have hq : ∀ e ∈ c :: cs, decide (¬(e = ' ' ∨ e.toNat = 9)) = true := by
    intro e he
    have hpe := hplain e he
    simp only [rpl_plain_char, Bool.not_eq_true', Bool.or_eq_false_iff,
      decide_eq_false_iff_not] at hpe
    simp only [decide_eq_true_eq]
    tauto
  rw [List.cons_append,
    lineparse_tokens_cons_plain c _ (hplain c (List.mem_cons_self _ _))]
  rw [takeWhile_all_append _ cs (' ' :: r)
      (fun e he => hq e (List.mem_cons_of_mem _ he)),
    dropWhile_all_append _ cs (' ' :: r)
      (fun e he => hq e (List.mem_cons_of_mem _ he))]
  rw [List.takeWhile_cons, List.dropWhile_cons]
  norm_num
  exact lineparse_tokens_cons_sep ' ' r (Or.inl rfl)

/-- Plain characters never set a funkiness flag. -/
theorem hasFunkyCharacters_loop_plain :
    ∀ (l : List Char) (flags : ℕ),
      (∀ c ∈ l, rpl_plain_char c = true) →
      hasFunkyCharacters_loop l flags = flags := by
  intro l
  induction l with
  | nil => intro flags _; rfl
  | cons c cs ih =>
    intro flags h
    have hpc := h c (List.mem_cons_self _ _)
    simp only [rpl_plain_char, Bool.not_eq_true', Bool.or_eq_false_iff,
      decide_eq_false_iff_not] at hpc
    by_cases hf : flags = 15
    · simp [hasFunkyCharacters_loop, hf]
    · rw [hasFunkyCharacters_loop, if_neg hf,
        if_neg (by tauto), if_neg (by tauto), if_neg (by tauto),
        if_neg (by tauto)]
      exact ih flags (fun e he => h e (List.mem_cons_of_mem _ he))

/-- `escapeString` passes a plain name through unchanged. -/
theorem escapeString_plain (s : String)
    (h : ∀ c ∈ s.data, rpl_plain_char c = true) :
    escapeString s = s := by
  rw [escapeString]
  simp only [hasFunkyCharacters, hasFunkyCharacters_loop_plain s.data 0 h]
  rfl

/-- C2 (amended): saving is inverted by *loading*, not the other way
round: for a bank with a plain nonempty name and no presets, feeding the
saver's canonical output back through the file loader (which rewrites
newlines to spaces before tokenizing) recovers the identical bank.  The
direction claimed by the spec, save∘load = id on accepted texts, fails:
see `rpl_save_load_not_identity_cex`. -/
theorem rpl_save_then_load_roundtrip (name : String)
    (hne : name ≠ "") (hlen : name.length ≤ 1000000)
    (hplain : ∀ c ∈ name.data, rpl_plain_char c = true) :
    ysfx_load_bank_text
        (ysfx_save_bank_to_rpl_text { name := name, presets := [] }) =
      some { name := name, presets := [] } := by
  obtain ⟨l⟩ := name
  have hl : l ≠ [] := by
    intro h0
    exact hne (by rw [h0])
  have hplain' : ∀ c ∈ l, rpl_plain_char c = true := hplain
  have hlen' : l.length ≤ 1000000 := hlen
  have hdata : (ysfx_save_bank_to_rpl_text
      { name := String.mk l, presets := [] }).data =
      "<REAPER_PRESET_LIBRARY ".data ++ l ++ ['\n', '>', '\n'] := by
    rw [ysfx_save_bank_to_rpl_text]
    simp [escapeString_plain _ hplain', String.join]
  have hlen2 : ("<REAPER_PRESET_LIBRARY ".data ++ l ++ ['\n', '>', '\n']).length
      ≤ 16777216 := by
    simp [List.length_append]
    omega
  have hmapl : ∀ c ∈ l,
      (fun c => if c.toNat = 13 ∨ c.toNat = 10 then ' ' else c) c = id c := by
    intro c hc
    have hpc := hplain' c hc
    simp only [rpl_plain_char, Bool.not_eq_true', Bool.or_eq_false_iff,
      decide_eq_false_iff_not] at hpc
    simp only [id]
    rw [if_neg (by tauto)]
  have hmap : (("<REAPER_PRESET_LIBRARY ".data ++ l ++ ['\n', '>', '\n']).map
      (fun c => if c.toNat = 13 ∨ c.toNat = 10 then ' ' else c)) =
      "<REAPER_PRESET_LIBRARY ".data ++ l ++ [' ', '>', ' '] := by
    simp only [List.map_append]
    rw [List.map_congr_left hmapl, List.map_id]
    congr 1
  have harr : "<REAPER_PRESET_LIBRARY ".data ++ l ++ [' ', '>', ' '] =
      "<REAPER_PRESET_LIBRARY".data ++ ' ' :: (l ++ ' ' :: (['>'] ++ ' ' :: [])) := by
    simp
  have htok : lineparse_tokens
      ("<REAPER_PRESET_LIBRARY".data ++ ' ' :: (l ++ ' ' :: (['>'] ++ ' ' :: []))) =
      ["<REAPER_PRESET_LIBRARY", String.mk l, ">"] := by
    rw [lineparse_token_space _ _ (by decide) (by decide)]
    rw [lineparse_token_space l _ hl hplain']
    rw [lineparse_token_space ['>'] [] (by decide) (by decide)]
    rw [lineparse_tokens]
  rw [ysfx_load_bank_text, hdata, List.take_of_length_le hlen2, hmap, harr]
  rw [ysfx_load_bank_from_rpl_text]
  rw [show (String.mk ("<REAPER_PRESET_LIBRARY".data ++
      ' ' :: (l ++ ' ' :: (['>'] ++ ' ' :: [])))).data =
      "<REAPER_PRESET_LIBRARY".data ++
      ' ' :: (l ++ ' ' :: (['>'] ++ ' ' :: [])) from rfl]
  rw [htok]
  simp [ysfx_load_bank_loop]

/-- Witness for C2 (amended): the concrete bank named `Foo` with no
presets survives the save-then-load round trip. -/
theorem rpl_save_then_load_roundtrip_witness :
    ("Foo" ≠ "" ∧ "Foo".length ≤ 1000000 ∧
      ∀ c ∈ "Foo".data, rpl_plain_char c = true) ∧
    ysfx_load_bank_text
        (ysfx_save_bank_to_rpl_text { name := "Foo", presets := [] }) =
      some { name := "Foo", presets := [] } :=
  ⟨⟨by decide, by decide, by decide⟩,
   rpl_save_then_load_roundtrip "Foo" (by decide) (by decide) (by decide)⟩
